import Mathlib

/-!
Verification development for the polyseek-sentient analysis pipeline.

The Python sources are shallowly embedded:
* `JVal` models Python values produced by `json.loads` (dicts as ordered
  association lists, numbers as rationals).
* `jsonLoadsL` models `json.loads` on a list of characters (strict JSON:
  objects, arrays, strings with escapes, numbers, literals; a value followed
  only by whitespace).
* `parse_response_json` embeds `analysis_agent._parse_response_json`,
  including the fence stripping, brace-window extraction, the trailing-comma
  regex repair, and the fall-through paths.  A Python function that falls off
  the end returns `None`, modelled as `Option.none`.
-/

namespace Polyseek

/-- Whitespace accepted by the JSON grammar (`json.loads`). -/
def isJWs (c : Char) : Bool :=
  c = ' ' || c = '\t' || c = '\n' || c = '\r'

/-- Whitespace stripped by Python's `str.strip()` and matched by regex `\s`
(ASCII range). -/
def isPyWs (c : Char) : Bool :=
  c = ' ' || c = '\t' || c = '\n' || c = '\r' || c = Char.ofNat 11 || c = Char.ofNat 12

/-- Python `str.strip()` on a character list. -/
def pstrip (l : List Char) : List Char :=
  ((l.dropWhile isPyWs).reverse.dropWhile isPyWs).reverse

/-- Values produced by `json.loads`: Python dicts kept as ordered field
lists, all numbers as rationals. -/
inductive JVal where
  | null : JVal
  | bool (b : Bool) : JVal
  | num (q : ℚ) : JVal
  | str (s : String) : JVal
  | arr (elems : List JVal) : JVal
  | obj (fields : List (String × JVal)) : JVal

/-- Python dict lookup: the last binding for a key wins (as when `json.loads`
builds a dict from duplicate keys). -/
def objGet : List (String × JVal) → String → Option JVal
  | [], _ => none
  | (k, v) :: rest, key =>
    match objGet rest key with
    | some r => some r
    | none => if k = key then some v else none

/-- `d.get(k)` on a JSON value; `none` on non-dicts. -/
def JVal.get : JVal → String → Option JVal
  | .obj kvs, k => objGet kvs k
  | _, _ => none

/-- Python `k in d`. -/
def JVal.hasKey (v : JVal) (k : String) : Bool :=
  (v.get k).isSome

/-- Hex digit value, for `\u` escapes. -/
def hexVal (c : Char) : Option Nat :=
  if c.isDigit then some (c.toNat - 48)
  else if 97 ≤ c.toNat ∧ c.toNat ≤ 102 then some (c.toNat - 87)
  else if 65 ≤ c.toNat ∧ c.toNat ≤ 70 then some (c.toNat - 55)
  else none

/-- Single-character JSON escapes. -/
def escChar (c : Char) : Option Char :=
  if c = '"' then some '"'
  else if c = '\\' then some '\\'
  else if c = '/' then some '/'
  else if c = 'b' then some (Char.ofNat 8)
  else if c = 'f' then some (Char.ofNat 12)
  else if c = 'n' then some '\n'
  else if c = 'r' then some '\r'
  else if c = 't' then some '\t'
  else none

/-- Body of a JSON string after the opening quote: returns the decoded
characters and the input after the closing quote. -/
def parseStringBody : List Char → Option (List Char × List Char)
  | [] => none
  | c :: rest =>
    if c = '"' then some ([], rest)
    else if c = '\\' then
      match rest with
      | [] => none
      | e :: rest2 =>
        if e = 'u' then
          match rest2 with
          | h1 :: h2 :: h3 :: h4 :: rest3 =>
            match hexVal h1, hexVal h2, hexVal h3, hexVal h4 with
            | some a, some b, some c2, some d =>
              (parseStringBody rest3).map
                (fun pr => (Char.ofNat (((a * 16 + b) * 16 + c2) * 16 + d) :: pr.1, pr.2))
            | _, _, _, _ => none
          | _ => none
        else
          match escChar e with
          | some ec => (parseStringBody rest2).map (fun pr => (ec :: pr.1, pr.2))
          | none => none
    else if c.toNat < 32 then none
    else (parseStringBody rest).map (fun pr => (c :: pr.1, pr.2))

/-- Leading decimal digits and the rest. -/
def takeDigits (l : List Char) : List Char × List Char :=
  (l.takeWhile Char.isDigit, l.dropWhile Char.isDigit)

/-- Numeric value of a digit string. -/
def natOfDigits (ds : List Char) : Nat :=
  ds.foldl (fun a c => a * 10 + (c.toNat - 48)) 0

/-- Optional sign of an exponent. -/
def parseExpSign (rest : List Char) : ℤ × List Char :=
  match rest with
  | '+' :: r => (1, r)
  | '-' :: r => (-1, r)
  | _ => (1, rest)

/-- Exponent part of a JSON number (after the `e`); on a malformed exponent
the number ends before the `e`, as with the reference regex. -/
def parseExp (rest orig : List Char) : ℤ × List Char :=
  match takeDigits (parseExpSign rest).2 with
  | ([], _) => (0, orig)
  | (ds, r2) => ((parseExpSign rest).1 * (natOfDigits ds : ℤ), r2)

/-- The rational value `(-1)^neg * (ip . fds) * 10^ex`, built with integer
arithmetic so that it reduces in the kernel. -/
def jsonNumVal (neg : Bool) (ip : Nat) (fds : List Char) (ex : ℤ) : ℚ :=
  let base : ℤ := ((ip * 10 ^ fds.length + natOfDigits fds : ℕ) : ℤ)
  let n : ℤ := if neg then -base else base
  if 0 ≤ ex then mkRat (n * 10 ^ ex.toNat) (10 ^ fds.length)
  else mkRat n (10 ^ fds.length * 10 ^ (-ex).toNat)

/-- Fraction digits of a JSON number (none when the dot is not followed
by a digit, as with the reference regex). -/
def parseFrac (l : List Char) : List Char × List Char :=
  match l with
  | '.' :: rest =>
    (match takeDigits rest with
     | ([], _) => ([], l)
     | (ds, r) => (ds, r))
  | _ => ([], l)

/-- Optional exponent of a JSON number. -/
def parseExpPart (l : List Char) : ℤ × List Char :=
  match l with
  | 'e' :: rest => parseExp rest l
  | 'E' :: rest => parseExp rest l
  | _ => (0, l)

/-- Fraction and exponent of a JSON number, given the integer part. -/
def parseNumTail (neg : Bool) (ip : Nat) (l : List Char) : ℚ × List Char :=
  (jsonNumVal neg ip (parseFrac l).1 (parseExpPart (parseFrac l).2).1,
   (parseExpPart (parseFrac l).2).2)

/-- Optional leading minus of a JSON number. -/
def parseNumSign (l : List Char) : Bool × List Char :=
  match l with
  | '-' :: rest => (true, rest)
  | _ => (false, l)

/-- JSON number: `-? (0 | [1-9][0-9]*) frac? exp?`. -/
def parseNumber (l : List Char) : Option (ℚ × List Char) :=
  match (parseNumSign l).2 with
  | '0' :: rest => some (parseNumTail (parseNumSign l).1 0 rest)
  | c :: rest =>
    if c.isDigit then
      some (parseNumTail (parseNumSign l).1
        (natOfDigits (c :: (takeDigits rest).1)) (takeDigits rest).2)
    else none
  | [] => none

/-- Continuation after an opening brace: an immediate closing brace or a
member list parsed by `pm`. -/
def parseObjRest (pm : List Char → Option (List (String × JVal) × List Char))
    (rest : List Char) : Option (JVal × List Char) :=
  match List.dropWhile isJWs rest with
  | '}' :: r => some (.obj [], r)
  | l2 => (pm l2).map (fun pr => (.obj pr.1, pr.2))

/-- Continuation after an opening bracket: an immediate closing bracket or
an element list parsed by `pi`. -/
def parseArrRest (pi : List Char → Option (List JVal × List Char))
    (rest : List Char) : Option (JVal × List Char) :=
  match List.dropWhile isJWs rest with
  | ']' :: r => some (.arr [], r)
  | l2 => (pi l2).map (fun pr => (.arr pr.1, pr.2))

/-- JSON value at the head of the input (leading whitespace already
skipped), with the object-member and array-element parsers passed in;
returns the value and the unconsumed rest. -/
def parseValBody (pm : List Char → Option (List (String × JVal) × List Char))
    (pi : List Char → Option (List JVal × List Char)) (l : List Char) :
    Option (JVal × List Char) :=
  match l with
  | '{' :: rest => parseObjRest pm rest
  | '[' :: rest => parseArrRest pi rest
  | '"' :: rest => (parseStringBody rest).map (fun pr => (.str ⟨pr.1⟩, pr.2))
  | 't' :: 'r' :: 'u' :: 'e' :: rest => some (.bool true, rest)
  | 'f' :: 'a' :: 'l' :: 's' :: 'e' :: rest => some (.bool false, rest)
  | 'n' :: 'u' :: 'l' :: 'l' :: rest => some (.null, rest)
  | l2 => (parseNumber l2).map (fun pr => (.num pr.1, pr.2))

/-- Nonempty member list of a JSON object, positioned at a key quote, with
the value parser and the continuation member parser passed in; consumes
through the closing `\x7d`. -/
def parseMembersBody (pv : List Char → Option (JVal × List Char))
    (pm : List Char → Option (List (String × JVal) × List Char)) (l : List Char) :
    Option (List (String × JVal) × List Char) :=
  match l with
  | '"' :: rest =>
    (match parseStringBody rest with
     | none => none
     | some (k, r1) =>
       match List.dropWhile isJWs r1 with
       | ':' :: r2 =>
         (match pv (List.dropWhile isJWs r2) with
          | none => none
          | some (v, r3) =>
            match List.dropWhile isJWs r3 with
            | ',' :: r4 => (pm (List.dropWhile isJWs r4)).map (fun pr => ((⟨k⟩, v) :: pr.1, pr.2))
            | '}' :: r4 => some ([(⟨k⟩, v)], r4)
            | _ => none)
       | _ => none)
  | _ => none

/-- Nonempty element list of a JSON array, with the value parser and the
continuation element parser passed in; consumes through the closing
bracket. -/
def parseItemsBody (pv : List Char → Option (JVal × List Char))
    (pi : List Char → Option (List JVal × List Char)) (l : List Char) :
    Option (List JVal × List Char) :=
  match pv (List.dropWhile isJWs l) with
  | none => none
  | some (v, r) =>
    match List.dropWhile isJWs r with
    | ',' :: r2 => (pi r2).map (fun pr => (v :: pr.1, pr.2))
    | ']' :: r2 => some ([v], r2)
    | _ => none

mutual

/-- JSON value at the head of the input, with fuel. -/
def parseValAt : Nat → List Char → Option (JVal × List Char)
  | 0, _ => none
  | fuel + 1, l => parseValBody (parseMembers fuel) (parseItems fuel) l

/-- Nonempty member list of a JSON object, with fuel. -/
def parseMembers : Nat → List Char → Option (List (String × JVal) × List Char)
  | 0, _ => none
  | fuel + 1, l => parseMembersBody (parseValAt fuel) (parseMembers fuel) l

/-- Nonempty element list of a JSON array, with fuel. -/
def parseItems : Nat → List Char → Option (List JVal × List Char)
  | 0, _ => none
  | fuel + 1, l => parseItemsBody (parseValAt fuel) (parseItems fuel) l

end

/-- `json.loads` on a character list: one JSON value, then only
whitespace. -/
def jsonLoadsL (l : List Char) : Option JVal :=
  match parseValAt (l.length + 1) (List.dropWhile isJWs l) with
  | some (v, r) => if r.all isJWs then some v else none
  | none => none

/-- Does `pat` occur at the head of `l`? (Python `str.startswith`.) -/
def startsWithL : List Char → List Char → Bool
  | [], _ => true
  | _ :: _, [] => false
  | p :: ps, c :: cs => p = c && startsWithL ps cs

/-- Python `str.endswith`. -/
def endsWithL (pat l : List Char) : Bool :=
  startsWithL pat.reverse l.reverse

/-- The characters of a markdown fence with a json tag. -/
def fenceJson : List Char := ['`', '`', '`', 'j', 's', 'o', 'n']

/-- The characters of a bare triple-backtick fence. -/
def fence3 : List Char := ['`', '`', '`']

/-- Lines 593-600 of `_parse_response_json`: strip one leading fence marker
(7 or 3 characters) and one trailing fence marker, re-stripping
whitespace. -/
def stripFences (l : List Char) : List Char :=
  let a := if startsWithL fenceJson l then pstrip (l.drop 7)
           else if startsWithL fence3 l then pstrip (l.drop 3)
           else l
  if endsWithL fence3 a then pstrip (a.take (a.length - 3)) else a

/-- Index of the first occurrence of `c` (Python `str.find`). -/
def findIdxCh (c : Char) (l : List Char) : Option Nat :=
  l.findIdx? (fun x => x = c)

/-- Index of the last occurrence of `c` (Python `str.rfind`). -/
def rfindIdxCh (c : Char) (l : List Char) : Option Nat :=
  match findIdxCh c l.reverse with
  | some j => some (l.length - 1 - j)
  | none => none

/-- Lines 602-607: restrict to the window from the first `\x7b` to the last
`\x7d` when both exist in that order. -/
def braceExtract (l : List Char) : List Char :=
  match findIdxCh '{' l, rfindIdxCh '}' l with
  | some i, some j => if i < j then (l.drop i).take (j - i + 1) else l
  | _, _ => l

/-- Match of `\s*[}\]]` at the head of the input: the whitespace run, the
closing brace or bracket, and the rest. -/
def wsBraceSplit : List Char → Option (List Char × Char × List Char)
  | [] => none
  | c :: rest =>
    if c = '}' ∨ c = ']' then some ([], c, rest)
    else if isPyWs c then
      match wsBraceSplit rest with
      | some (ws, b, r) => some (c :: ws, b, r)
      | none => none
    else none

theorem wsBraceSplit_length {l ws r : List Char} {b : Char}
    (h : wsBraceSplit l = some (ws, b, r)) : r.length < l.length := by
  induction l generalizing ws with
  | nil => simp [wsBraceSplit] at h
  | cons c rest ih =>
    simp only [wsBraceSplit] at h
    split at h
    · cases h
      simp
    · split at h
      · cases hrec : wsBraceSplit rest with
        | none => rw [hrec] at h; cases h
        | some t =>
          obtain ⟨ws1, b1, r1⟩ := t
          rw [hrec] at h
          cases h
          have := ih hrec
          simp
          omega
      · cases h

/-- Body of the trailing-comma substitution, with fuel for structural
recursion (the fuel never runs out when it starts at the input length
plus one, since `wsBraceSplit` consumes at least one character). -/
def subTrailingF : Nat → List Char → List Char
  | 0, l => l
  | _, [] => []
  | fuel + 1, c :: rest =>
    if c = ',' then
      match wsBraceSplit rest with
      | some (ws, b, r) => ws ++ b :: subTrailingF fuel r
      | none => c :: subTrailingF fuel rest
    else c :: subTrailingF fuel rest

/-- `re.sub(r',(\s*[}\]])', r'\1', _)`: drop every comma that immediately
precedes (up to whitespace) a closing brace or bracket, scanning left to
right without overlap. -/
def subTrailing (l : List Char) : List Char :=
  subTrailingF (l.length + 1) l

/-- The five keys `_parse_response_json` and the orchestrator require. -/
def requiredFields : List String :=
  ["verdict", "confidence_pct", "summary", "key_drivers", "sources"]

/-- `isinstance(parsed, dict) and all(field in parsed for ...)`. -/
def hasRequiredKeys (v : JVal) : Bool :=
  match v with
  | .obj kvs => requiredFields.all (fun k => (objGet kvs k).isSome)
  | _ => false

/-- Lines 609-743 of `_parse_response_json` after cleaning: direct parse,
else the trailing-comma repair; a parse that succeeds without the required
keys, or fails twice, falls off the end of the Python function and yields
`None`.  (The fallback-document literal sits in a second
`except json.JSONDecodeError` arm that the first identical arm shadows, so
it is unreachable.) -/
def parseAttempts (cleaned : List Char) : Option JVal :=
  match jsonLoadsL cleaned with
  | some p => if hasRequiredKeys p then some p else none
  | none =>
    match jsonLoadsL (subTrailing cleaned) with
    | some p => if hasRequiredKeys p then some p else none
    | none => none

/-- `_parse_response_json` on a character list. -/
def parse_response_jsonL (raw : List Char) : Option JVal :=
  parseAttempts (braceExtract (stripFences (pstrip raw)))

/-- `analysis_agent._parse_response_json` (leading underscore dropped):
returns the parsed dict when some structural attempt both parses and has the
five required keys, and `None` otherwise. -/
def parse_response_json (raw : String) : Option JVal :=
  parse_response_jsonL raw.toList

/-! Embedding of `report_formatter.py`: pydantic models, the schema
validator, and the Markdown renderer. -/

/-- `SourceModel` after validation. -/
structure SourceModel where
  id : String
  title : String
  url : String
  type : String
  sentiment : String
  timestamp : Option String
deriving DecidableEq

/-- `DriverModel` after validation. -/
structure DriverModel where
  text : String
  source_ids : List String
deriving DecidableEq

/-- `AnalysisModel` after validation; `metadata` keeps the open dict from
the payload. -/
structure AnalysisModel where
  verdict : String
  confidence_pct : ℚ
  summary : String
  key_drivers : List DriverModel
  uncertainty_factors : List String
  next_steps : Option (List String)
  sources : List SourceModel
  analysis_timestamp : Option String
  metadata : Option (List (String × JVal))

/-- Python `str(v)` as used by `SourceModel.normalize_url` on non-null
input; exact on strings, a plain rendering on other values (no claim
exercises those). -/
def pyStr : JVal → String
  | .str s => s
  | .bool true => "True"
  | .bool false => "False"
  | .num q => toString q
  | .null => "None"
  | .arr _ => "[list]"
  | .obj _ => "[dict]"

/-- A required/typed `str` field. -/
def asStr : JVal → Except String String
  | .str s => .ok s
  | _ => .error "expected string"

/-- Round the fraction `n / d` (`d > 0`) half to even, as Python `round`
on an exact value; integer arithmetic only so that it reduces in the
kernel. -/
def roundHalfEvenND (n d : ℤ) : ℤ :=
  let f : ℤ := n.fdiv d
  let rem : ℤ := n - f * d
  if 2 * rem < d then f
  else if d < 2 * rem then f + 1
  else if f % 2 = 0 then f else f + 1

/-- Round half to even, as Python `round` on an exact value. -/
def roundHalfEven (q : ℚ) : ℤ :=
  roundHalfEvenND q.num (q.den : ℤ)

/-- Python `round(q, 1)` on an exact value (`10 * q` is formed on the
numerator, so nothing here needs rational multiplication). -/
def pyRound1 (q : ℚ) : ℚ :=
  mkRat (roundHalfEvenND (q.num * 10) (q.den : ℤ)) 10

/-- `AnalysisModel.validate_confidence`: reject outside `[0, 100]`, round
to one decimal otherwise. -/
def validate_confidence (q : ℚ) : Except String ℚ :=
  if 0 ≤ q ∧ q ≤ 100 then .ok (pyRound1 q)
  else .error "confidence_pct must be between 0 and 100"

/-- The synthesized source used when the payload has no sources. -/
def fallbackSource : SourceModel :=
  { id := "SRC_FALLBACK", title := "Analysis based on market data", url := "",
    type := "market", sentiment := "neutral", timestamp := none }

/-- `AnalysisModel.require_sources`: empty list becomes the single
fallback source, more than 10 entries are truncated to the first 10. -/
def require_sources (sources : List SourceModel) : List SourceModel :=
  if sources.isEmpty then [fallbackSource]
  else if sources.length > 10 then sources.take 10
  else sources

/-- Parse one element of the `sources` payload list into a `SourceModel`
(pydantic field validation: required strings, `url` normalized from
null/absent to empty, `type` must match the pattern). -/
def parseSource (v : JVal) : Except String SourceModel := do
  match v with
  | .obj kvs => do
    let idv ← match objGet kvs "id" with
      | some j => asStr j
      | none => Except.error "source missing id"
    let title ← match objGet kvs "title" with
      | some j => asStr j
      | none => Except.error "source missing title"
    let url : String := match objGet kvs "url" with
      | none => ""
      | some .null => ""
      | some j => pyStr j
    let ty ← match objGet kvs "type" with
      | some j => asStr j
      | none => Except.error "source missing type"
    if ty = "market" ∨ ty = "comment" ∨ ty = "sns" ∨ ty = "news" then do
      let sentiment ← match objGet kvs "sentiment" with
        | some j => asStr j
        | none => Except.error "source missing sentiment"
      let ts ← match objGet kvs "timestamp" with
        | some (.str s) => Except.ok (some s)
        | some .null => Except.ok none
        | some _ => Except.error "source timestamp must be a string or null"
        | none => Except.ok none
      Except.ok { id := idv, title := title, url := url, type := ty,
                  sentiment := sentiment, timestamp := ts }
    else Except.error "source type must match (market|comment|sns|news)"
  | _ => Except.error "source must be a dict"

/-- Parse one element of the `key_drivers` payload list. -/
def parseDriver (v : JVal) : Except String DriverModel := do
  match v with
  | .obj kvs => do
    let text ← match objGet kvs "text" with
      | some j => asStr j
      | none => Except.error "driver missing text"
    let ids ← match objGet kvs "source_ids" with
      | some (.arr xs) => xs.mapM asStr
      | some _ => Except.error "driver source_ids must be a list"
      | none => Except.ok []
    Except.ok { text := text, source_ids := ids }
  | _ => Except.error "driver must be a dict"

/-- A required `str` field of the payload. -/
def reqStrField (kvs : List (String × JVal)) (name : String) : Except String String :=
  match objGet kvs name with
  | some j => asStr j
  | none => .error ("missing " ++ name)

/-- The raw `confidence_pct` number of the payload. -/
def confField (kvs : List (String × JVal)) : Except String ℚ :=
  match objGet kvs "confidence_pct" with
  | some (.num q) => .ok q
  | some _ => .error "confidence_pct must be a number"
  | none => .error "missing confidence_pct"

/-- The required `key_drivers` list of the payload. -/
def driversField (kvs : List (String × JVal)) : Except String (List DriverModel) :=
  match objGet kvs "key_drivers" with
  | some (.arr xs) => xs.mapM parseDriver
  | some _ => .error "key_drivers must be a list"
  | none => .error "missing key_drivers"

/-- The `uncertainty_factors` list; absent defaults to the empty list. -/
def ufField (kvs : List (String × JVal)) : Except String (List String) :=
  match objGet kvs "uncertainty_factors" with
  | some (.arr xs) => xs.mapM asStr
  | some _ => .error "uncertainty_factors must be a list"
  | none => .ok []

/-- The optional `next_steps` list; absent or null stays `None`. -/
def nsField (kvs : List (String × JVal)) : Except String (Option (List String)) :=
  match objGet kvs "next_steps" with
  | some (.arr xs) => (xs.mapM asStr).map some
  | some .null => .ok none
  | some _ => .error "next_steps must be a list or null"
  | none => .ok none

/-- The required `sources` list of the payload, each entry validated as a
`SourceModel`. -/
def sourcesField (kvs : List (String × JVal)) : Except String (List SourceModel) :=
  match objGet kvs "sources" with
  | some (.arr xs) => xs.mapM parseSource
  | some _ => .error "sources must be a list"
  | none => .error "missing sources"

/-- The optional `analysis_timestamp` field. -/
def atsField (kvs : List (String × JVal)) : Except String (Option String) :=
  match objGet kvs "analysis_timestamp" with
  | some (.str s) => .ok (some s)
  | some .null => .ok none
  | some _ => .error "analysis_timestamp must be a string or null"
  | none => .ok none

/-- The optional `metadata` dict. -/
def mdField (kvs : List (String × JVal)) : Except String (Option (List (String × JVal))) :=
  match objGet kvs "metadata" with
  | some (.obj m) => .ok (some m)
  | some .null => .ok none
  | some _ => .error "metadata must be a dict or null"
  | none => .ok none

/-- `AnalysisModel.model_validate` on a dict's fields. -/
def validate_fields (kvs : List (String × JVal)) : Except String AnalysisModel := do
  let verdict ← reqStrField kvs "verdict"
  let confRaw ← confField kvs
  let conf ← validate_confidence confRaw
  let summary ← reqStrField kvs "summary"
  let drivers ← driversField kvs
  let uf ← ufField kvs
  let ns ← nsField kvs
  let srcsRaw ← sourcesField kvs
  let ats ← atsField kvs
  let md ← mdField kvs
  Except.ok
    { verdict := verdict, confidence_pct := conf, summary := summary,
      key_drivers := drivers, uncertainty_factors := uf, next_steps := ns,
      sources := require_sources srcsRaw, analysis_timestamp := ats,
      metadata := md }

/-- `validate_analysis_payload`: validate a dict payload into the strongly
typed model, failing (ValueError / SchemaError) otherwise. -/
def validate_analysis_payload (p : JVal) : Except String AnalysisModel :=
  match p with
  | .obj kvs => validate_fields kvs
  | _ => .error "Invalid analysis payload: not a dict"

/-! Renderer (`render_markdown`). -/

/-- Python `", ".join`. -/
def commaJoin (xs : List String) : String :=
  String.intercalate ", " xs

/-- `model.metadata and model.metadata.get("mode") == "deep"`: a missing or
empty metadata dict is falsy. -/
def metaTruthyDeep (md : Option (List (String × JVal))) : Bool :=
  match md with
  | some kvs =>
    (!kvs.isEmpty) &&
      (match objGet kvs "mode" with
       | some (.str s) => s = "deep"
       | _ => false)
  | none => false

/-- The driver cap: 5 items when metadata says deep mode, else 3. -/
def max_drivers (m : AnalysisModel) : Nat :=
  if metaTruthyDeep m.metadata then 5 else 3

/-- One rendered driver line: the text plus its citation list, `n/a` when
the driver cites nothing. -/
def renderDriver (d : DriverModel) : String :=
  let refs := if d.source_ids.isEmpty then "n/a" else commaJoin d.source_ids
  "- " ++ d.text ++ " _(sources: " ++ refs ++ ")_"

/-- The driver item lines of the report: the capped prefix of
`key_drivers`, one line each. -/
def driverLines (m : AnalysisModel) : List String :=
  (m.key_drivers.take (max_drivers m)).map renderDriver

/-- `f"{q:.1f}"`. -/
def fmt1 (q : ℚ) : String :=
  let r : ℤ := roundHalfEven (10 * q)
  let sign := if r < 0 then "-" else ""
  let a := r.natAbs
  sign ++ toString (a / 10) ++ "." ++ toString (a % 10)

/-- `grouped.setdefault(source.type, []).append(source)` over the fixed
initial group order market, comment, sns, news. -/
def groupInsert (groups : List (String × List SourceModel)) (src : SourceModel) :
    List (String × List SourceModel) :=
  if groups.any (fun g => g.1 = src.type) then
    groups.map (fun g => if g.1 = src.type then (g.1, g.2 ++ [src]) else g)
  else groups ++ [(src.type, [src])]

/-- Group the sources by type, preserving order within each group. -/
def groupSources (srcs : List SourceModel) : List (String × List SourceModel) :=
  srcs.foldl groupInsert
    [("market", []), ("comment", []), ("sns", []), ("news", [])]

/-- The lines of `render_markdown`; `now` stands for
`datetime.utcnow().isoformat()`. -/
def renderLines (now : String) (m : AnalysisModel) : List String :=
  let timestamp := match m.analysis_timestamp with
    | some s => if s = "" then now else s
    | none => now
  ["### Verdict: **" ++ m.verdict ++ "**",
   "- Confidence: **" ++ fmt1 m.confidence_pct ++ "%**",
   "- Generated at: " ++ timestamp,
   "",
   "#### Summary",
   String.mk (pstrip m.summary.toList),
   "",
   "#### Key Drivers"]
  ++ (if m.key_drivers.isEmpty then ["- No salient drivers found."]
      else driverLines m)
  ++ ["", "#### Risks / Uncertainty"]
  ++ (if m.uncertainty_factors.isEmpty then ["- Uncertainty not specified."]
      else m.uncertainty_factors.map (fun i => "- " ++ i))
  ++ (match m.next_steps with
      | some steps =>
        if steps.isEmpty then []
        else ["", "#### Next Steps"] ++ steps.map (fun s => "- " ++ s)
      | none => [])
  ++ ["", "#### Sources"]
  ++ (groupSources m.sources).flatMap
      (fun g =>
        if g.2.isEmpty then []
        else ("- **" ++ g.1.toUpper ++ "**") ::
          g.2.map (fun e => "  - [" ++ e.title ++ "](" ++ e.url ++ ") (" ++ e.sentiment ++ ")"))

/-- `render_markdown`. -/
def render_markdown (now : String) (m : AnalysisModel) : String :=
  String.intercalate "\n" (renderLines now m)

/-! Embedding of `analysis_agent.py`: request/settings records, the
completion-service oracle, and the orchestrator.  A call to `acompletion`
is modelled by an oracle giving, for each call index in program order, the
returned text or the message of the raised exception; `Except.error`
models an exception propagating. -/

/-- `MarketPrices`. -/
structure MarketPrices where
  yes : Option ℚ
  no : Option ℚ

/-- `MarketData` (deadline kept as text). -/
structure MarketData where
  market_id : String
  title : String
  category : Option String
  rules : Option String
  deadline : Option String
  liquidity : Option ℚ
  volume_24h : Option ℚ
  source : String
  url : String
  prices : MarketPrices

/-- `Comment` from `scrape_context.py`. -/
structure Comment where
  comment_id : String
  author : Option String
  body : String
  language : String
  sentiment : String
  mentions_ratio : ℚ

/-- `MarketContext`. -/
structure MarketContext where
  resolution_rules : Option String
  comments : List Comment

/-- `SignalRecord` from `signals_client.py`. -/
structure SignalRecord where
  source : String
  source_type : String
  title : String
  url : String
  snippet : String
  timestamp : Option String
  sentiment : String
  credibility_score : ℚ
  engagement : Option Nat
  language : String

/-- `AnalysisRequest`. -/
structure AnalysisRequest where
  market : MarketData
  context : MarketContext
  signals : List SignalRecord
  depth : String
  perspective : String

/-- `LLMSettings` (the fields the orchestrator reads). -/
structure LLMSettings where
  model : String
  api_key : Option String
  temperature : ℚ
  max_tokens : Nat

/-- `AppSettings`. -/
structure AppSettings where
  offline_mode : Bool

/-- `Settings` (the parts the orchestrator reads). -/
structure Settings where
  llm : LLMSettings
  app : AppSettings

/-- The completion backend: text or exception message for the n-th
`acompletion` call of the request. -/
def Completion : Type := Nat → Except String String

/-- Python truthiness of an optional string (`not settings.llm.api_key`). -/
def truthyOptStr : Option String → Bool
  | none => false
  | some s => s != ""

/-- Python `repr` of a list of plain strings, as interpolated into
f-strings by the agent. -/
def pyListRepr (xs : List String) : String :=
  "[" ++ String.intercalate ", " (xs.map (fun s => "'" ++ s ++ "'")) ++ "]"

/-- The required fields absent from a parsed result. -/
def missingFields (v : JVal) : List String :=
  requiredFields.filter (fun f => !(v.hasKey f))

/-- `d[k] = v` on an ordered dict. -/
def dictSet (kvs : List (String × JVal)) (k : String) (v : JVal) :
    List (String × JVal) :=
  if kvs.any (fun p => p.1 == k) then
    kvs.map (fun p => cond (p.1 == k) (k, v) p)
  else kvs ++ [(k, v)]

/-- `d[k] = v` on a JSON value known to be a dict. -/
def objSet (v : JVal) (k : String) (x : JVal) : JVal :=
  match v with
  | .obj kvs => .obj (dictSet kvs k x)
  | _ => v

/-- `_create_error_response`. -/
def create_error_response (msg : String) : JVal :=
  .obj [("verdict", .str "UNCERTAIN"),
        ("confidence_pct", .num 50),
        ("summary", .str msg),
        ("key_drivers", .arr [.obj
          [("text", .str "Analysis failed due to technical error. Please try again or contact support."),
           ("source_ids", .arr [.str "SRC_ERROR"])]]),
        ("uncertainty_factors", .arr [.str "Technical error prevented analysis"]),
        ("sources", .arr [.obj
          [("id", .str "SRC_ERROR"), ("title", .str "Error"), ("url", .str ""),
           ("type", .str "news"), ("sentiment", .str "neutral")]]),
        ("metadata", .obj [("error", .bool true), ("error_message", .str msg)])]

/-- `_offline_analysis`. -/
def offline_analysis (req : AnalysisRequest) : JVal :=
  .obj [("verdict", .str "UNCERTAIN"),
        ("confidence_pct", .num 50),
        ("summary", .str "Offline mode stub analysis. Connect to network for real results."),
        ("key_drivers", .arr [.obj
          [("text", .str "Offline environment cannot fetch live data."),
           ("source_ids", .arr [.str "SRC_OFFLINE"])]]),
        ("uncertainty_factors", .arr [.str "No external data available in offline mode."]),
        ("sources", .arr [.obj
          [("id", .str "SRC_OFFLINE"), ("title", .str "Offline Stub"),
           ("url", .str req.market.url), ("type", .str "news"),
           ("sentiment", .str "neutral")]]),
        ("analysis_timestamp", .null),
        ("metadata", .obj [("offline", .bool true)])]

/-- A parsed result when it is a dict, else the given default
(`if not isinstance(x, dict): x = default`). -/
def dictOr (v : Option JVal) (dflt : JVal) : JVal :=
  match v with
  | some (.obj kvs) => .obj kvs
  | _ => dflt

/-- `_run_quick_analysis`: one call; an exception from the call is caught
and converted to the error response; parse failures degrade through
`_parse_response_json` and finally to the error response.  The only
uncaught path is the metadata item assignment on a non-dict `metadata`
value (outside the `try`), modelled as `Except.error`. -/
def run_quick_analysis (comp : Completion) (_req : AnalysisRequest)
    (_settings : Settings) : Except String JVal :=
  match comp 0 with
  | .error e => .ok (create_error_response ("LLM API error: " ++ e))
  | .ok content =>
    let direct := jsonLoadsL (stripFences (pstrip content.toList))
    let result : Option JVal :=
      match direct with
      | some p => if hasRequiredKeys p then some p else parse_response_json content
      | none => parse_response_json content
    let r : JVal :=
      match result with
      | some (.obj kvs) => .obj kvs
      | _ => .obj []
    if (missingFields r).isEmpty then
      match r.get "metadata" with
      | some (.obj m) => .ok (objSet r "metadata" (.obj (dictSet m "mode" (.str "quick"))))
      | none => .ok (objSet r "metadata" (.obj (dictSet [] "mode" (.str "quick"))))
      | some _ => .error "TypeError: metadata does not support item assignment"
    else
      .ok (create_error_response ("LLM response missing fields: " ++ pyListRepr (missingFields r)))

/-- The empty plan substituted when the planner output is not a dict. -/
def defaultPlan : JVal :=
  .obj [("analysis_plan", .arr []), ("key_questions", .arr []),
        ("information_gaps", .arr [])]

/-- The empty critique substituted when the critic output is not a dict. -/
def defaultCritique : JVal :=
  .obj [("gaps", .arr []), ("follow_up_queries", .arr []),
        ("biases", .arr []), ("recommendations", .arr [])]

/-- The deterministic document substituted in deep mode when the final
output lacks required fields. -/
def format_error_fallback : JVal :=
  .obj [("verdict", .str "UNCERTAIN"),
        ("confidence_pct", .num 50),
        ("summary", .str ("LLM returned invalid response structure. Expected fields: " ++ pyListRepr requiredFields)),
        ("key_drivers", .arr [.obj
          [("text", .str "LLM response format error"),
           ("source_ids", .arr [.str "SRC_FORMAT_ERROR"])]]),
        ("uncertainty_factors", .arr [.str "LLM response did not match expected format"]),
        ("sources", .arr [.obj
          [("id", .str "SRC_FORMAT_ERROR"), ("title", .str "Format Error"),
           ("url", .str ""), ("type", .str "news"), ("sentiment", .str "neutral")]])]

/-- The plan stage artifact from the planner's raw text. -/
def planOf (content : String) : JVal :=
  dictOr (parse_response_json content) defaultPlan

/-- The critique stage artifact from the critic's raw text. -/
def critiqueOf (content : String) : JVal :=
  dictOr (parse_response_json content) defaultCritique

/-- Lines 263-269: attach mode, plan and critique metadata to the deep
result (item assignment on a non-dict `metadata` value raises). -/
def deepMeta (plan critique result : JVal) : Except String JVal := do
  let md ← match result.get "metadata" with
    | some (.obj m) => Except.ok m
    | none => Except.ok []
    | some _ => Except.error "TypeError: metadata does not support item assignment"
  let md := dictSet md "mode" (.str "deep")
  let md := dictSet md "plan" ((plan.get "analysis_plan").getD (.arr []))
  let md := dictSet md "critique"
    (.obj [("gaps", (critique.get "gaps").getD (.arr [])),
           ("follow_up_queries", (critique.get "follow_up_queries").getD (.arr []))])
  Except.ok (objSet result "metadata" (.obj md))

/-- `_run_deep_analysis`: plan, critique, follow-up passthrough, final.
None of the three completion calls sits in a `try`, so an exception from
any of them propagates (`Except.error`). -/
def run_deep_analysis (comp : Completion) (_req : AnalysisRequest)
    (_settings : Settings) : Except String JVal := do
  let planContent ← comp 0
  let plan := planOf planContent
  let critContent ← comp 1
  let critique := critiqueOf critContent
  let finalContent ← comp 2
  let result := dictOr (parse_response_json finalContent) (JVal.obj [])
  let result := if (missingFields result).isEmpty then result else format_error_fallback
  deepMeta plan critique result

/-- `run_analysis`: offline short-circuit, then deep or quick.
`acompletionAvailable` models the import-time `acompletion is None`
probe. -/
def run_analysis (acompletionAvailable : Bool) (comp : Completion)
    (req : AnalysisRequest) (settings : Settings) : Except String JVal :=
  if settings.app.offline_mode || !acompletionAvailable || !truthyOptStr settings.llm.api_key then
    .ok (offline_analysis req)
  else if req.depth = "deep" then run_deep_analysis comp req settings
  else run_quick_analysis comp req settings

/-! Helper lemmas about the validator. -/

/-- Inversion for a successful `Except` bind. -/
theorem exceptBindOk {α β : Type} {x : Except String α} {f : α → Except String β} {b : β}
    (h : x >>= f = Except.ok b) : ∃ a, x = Except.ok a ∧ f a = Except.ok b := by
  cases x with
  | error e => exact Except.noConfusion h
  | ok a => exact ⟨a, rfl, h⟩

/-- Inversion for a successful `validate_confidence`. -/
theorem validate_confidence_ok {q c : ℚ} (h : validate_confidence q = Except.ok c) :
    0 ≤ q ∧ q ≤ 100 ∧ c = pyRound1 q := by
  unfold validate_confidence at h
  split at h
  next hq =>
    injection h with h2
    exact ⟨hq.1, hq.2, h2.symm⟩
  next => exact Except.noConfusion h

/-- Inversion for a successful `validate_fields`: the facts the claims
about the schema validator need. -/
theorem validate_fields_ok {kvs : List (String × JVal)} {m : AnalysisModel}
    (h : validate_fields kvs = Except.ok m) :
    ∃ q srcs,
      confField kvs = Except.ok q ∧
      0 ≤ q ∧ q ≤ 100 ∧
      m.confidence_pct = pyRound1 q ∧
      sourcesField kvs = Except.ok srcs ∧
      m.sources = require_sources srcs ∧
      objGet kvs "key_drivers" ≠ none ∧
      (objGet kvs "uncertainty_factors" = none → m.uncertainty_factors = []) ∧
      (objGet kvs "next_steps" = none → m.next_steps = none) := by
  unfold validate_fields at h
  obtain ⟨verdict, h1, h⟩ := exceptBindOk h
  obtain ⟨confRaw, h2, h⟩ := exceptBindOk h
  obtain ⟨conf, h3, h⟩ := exceptBindOk h
  obtain ⟨summary, h4, h⟩ := exceptBindOk h
  obtain ⟨drivers, h5, h⟩ := exceptBindOk h
  obtain ⟨uf, h6, h⟩ := exceptBindOk h
  obtain ⟨ns, h7, h⟩ := exceptBindOk h
  obtain ⟨srcs, h8, h⟩ := exceptBindOk h
  obtain ⟨ats, h9, h⟩ := exceptBindOk h
  obtain ⟨md, h10, h⟩ := exceptBindOk h
  injection h with h
  subst h
  have hkd : objGet kvs "key_drivers" ≠ none := by
    intro hn
    unfold driversField at h5
    rw [hn] at h5
    exact Except.noConfusion h5
  have huf : objGet kvs "uncertainty_factors" = none → uf = [] := by
    intro hn
    unfold ufField at h6
    rw [hn] at h6
    injection h6 with h6
    exact h6.symm
  have hns : objGet kvs "next_steps" = none → ns = none := by
    intro hn
    unfold nsField at h7
    rw [hn] at h7
    injection h7 with h7
    exact h7.symm
  have hc := validate_confidence_ok h3
  exact ⟨confRaw, srcs, h2, hc.1, hc.2.1, hc.2.2, h8, rfl, hkd, huf, hns⟩

/-- Inversion for a successful `confField` under a known lookup. -/
theorem confField_num {kvs : List (String × JVal)} {q c : ℚ}
    (hq : objGet kvs "confidence_pct" = some (.num q))
    (h : confField kvs = Except.ok c) : c = q := by
  unfold confField at h
  rw [hq] at h
  injection h with h
  exact h.symm

/-- Length bounds of `require_sources`. -/
theorem require_sources_length (srcs : List SourceModel) :
    1 ≤ (require_sources srcs).length ∧ (require_sources srcs).length ≤ 10 := by
  unfold require_sources
  split
  next => simp
  next he =>
    split
    next hl =>
      constructor
      · rw [List.length_take]
        omega
      · rw [List.length_take]
        omega
    next hl =>
      constructor
      · cases srcs with
        | nil => simp at he
        | cons a t => simp
      · omega

/-- `require_sources` keeps a list of 1 to 10 sources unchanged. -/
theorem require_sources_id {srcs : List SourceModel} (h1 : srcs ≠ [])
    (h2 : srcs.length ≤ 10) : require_sources srcs = srcs := by
  unfold require_sources
  rw [if_neg, if_neg]
  · omega
  · simp [h1]

/-- Replacing the value at one dict key leaves every other lookup
unchanged. -/
theorem objGet_mapSet_ne (kvs : List (String × JVal)) (k k' : String) (v : JVal)
    (h : k ≠ k') :
    objGet (kvs.map (fun p => cond (p.1 == k) (k, v) p)) k' = objGet kvs k' := by
  induction kvs with
  | nil => rfl
  | cons a rest ih =>
    obtain ⟨a1, a2⟩ := a
    simp only [List.map_cons, objGet, ih]
    cases objGet rest k' with
    | some r => rfl
    | none =>
      cases hk : a1 == k with
      | false => rfl
      | true =>
        have ha : a1 = k := by simpa using hk
        subst ha
        rw [if_neg h, if_neg h]

/-- Appending a binding for one key leaves every other lookup unchanged. -/
theorem objGet_append_ne (kvs : List (String × JVal)) (k k' : String) (v : JVal)
    (h : k ≠ k') : objGet (kvs ++ [(k, v)]) k' = objGet kvs k' := by
  induction kvs with
  | nil =>
    simp only [List.nil_append, objGet]
    rw [if_neg h]
  | cons a rest ih =>
    obtain ⟨a1, a2⟩ := a
    simp only [List.cons_append, List.append_eq, objGet, ih]

/-- Updating one dict key leaves every other lookup unchanged. -/
theorem objGet_dictSet_ne (kvs : List (String × JVal)) (k k' : String) (v : JVal)
    (h : k ≠ k') : objGet (dictSet kvs k v) k' = objGet kvs k' := by
  unfold dictSet
  split
  · exact objGet_mapSet_ne kvs k k' v h
  · exact objGet_append_ne kvs k k' v h

/-! Concrete payloads used in witnesses. -/

/-- A well-formed source payload entry, for concrete checks. -/
def mkSrc (i : String) : JVal :=
  .obj [("id", .str i), ("title", .str "t"), ("url", .str "u"),
        ("type", .str "news"), ("sentiment", .str "pro")]

/-- The fields of a well-formed payload with the given confidence and
sources. -/
def mkPayloadKvs (conf : ℚ) (srcs : List JVal) : List (String × JVal) :=
  [("verdict", .str "YES"), ("confidence_pct", .num conf),
   ("summary", .str "s"), ("key_drivers", .arr []),
   ("sources", .arr srcs)]

/-- A well-formed payload with the given confidence and sources. -/
def mkPayload (conf : ℚ) (srcs : List JVal) : JVal :=
  .obj (mkPayloadKvs conf srcs)

/-- The validated form of `mkSrc`. -/
def mkSrcModel (i : String) : SourceModel :=
  { id := i, title := "t", url := "u", type := "news", sentiment := "pro",
    timestamp := none }

/-- The validated form of `mkPayload`. -/
def mkModel (conf : ℚ) (srcs : List SourceModel) : AnalysisModel :=
  { verdict := "YES", confidence_pct := conf, summary := "s",
    key_drivers := [], uncertainty_factors := [], next_steps := none,
    sources := srcs, analysis_timestamp := none, metadata := none }

/-! Claims about the schema validator: C4, C5, C6, C10. -/

/-- C4 counterexample payload: valid except that `key_drivers` is absent. -/
def c4Payload : JVal :=
  .obj [("verdict", .str "YES"), ("confidence_pct", .num 50),
        ("summary", .str "s"), ("sources", .arr [mkSrc "S1"])]

/-- C4 counterexample: the validator rejects a document whose
`key_drivers` key is absent, rather than accepting it with an empty
default list as the claim describes. -/
theorem C4_key_drivers_counterexample :
    validate_analysis_payload c4Payload = Except.error "missing key_drivers" := rfl

/-- C4 (amended): `key_drivers` is required — every accepted payload has
the key; `uncertainty_factors` defaults to the empty list when absent;
`next_steps` stays `None` when absent (it is not defaulted to an empty
list). -/
theorem C4_field_defaults :
    ∀ (kvs : List (String × JVal)) (m : AnalysisModel),
      validate_analysis_payload (.obj kvs) = Except.ok m →
      objGet kvs "key_drivers" ≠ none ∧
      (objGet kvs "uncertainty_factors" = none → m.uncertainty_factors = []) ∧
      (objGet kvs "next_steps" = none → m.next_steps = none) := by
  intro kvs m hok
  obtain ⟨q, srcs, _, _, _, _, _, _, hkd, huf, hns⟩ := validate_fields_ok hok
  exact ⟨hkd, huf, hns⟩

/-- C4 witness: the amended claim evaluated on a concrete payload without
`uncertainty_factors` and `next_steps` keys. -/
theorem C4_field_defaults_witness :
    (mkModel (pyRound1 50) [mkSrcModel "S1"]).uncertainty_factors = [] ∧
    (mkModel (pyRound1 50) [mkSrcModel "S1"]).next_steps = none := by
  have h := C4_field_defaults (mkPayloadKvs 50 [mkSrc "S1"])
    (mkModel (pyRound1 50) [mkSrcModel "S1"]) rfl
  exact ⟨h.2.1 rfl, h.2.2 rfl⟩

/-- C5: the validator rejects every payload whose `confidence_pct` lies
outside `[0, 100]` — e.g. 150 — and never clamps; both boundary values 0
and 100 are accepted; and on every accepted payload the resulting
`confidence_pct` is the input rounded to one decimal place. -/
theorem C5_confidence_bounds_and_rounding :
    (∀ (kvs : List (String × JVal)) (q : ℚ) (m : AnalysisModel),
        objGet kvs "confidence_pct" = some (.num q) → (q < 0 ∨ 100 < q) →
        validate_analysis_payload (.obj kvs) ≠ Except.ok m) ∧
    validate_analysis_payload (mkPayload 0 [mkSrc "S1"]) =
      Except.ok (mkModel (pyRound1 0) [mkSrcModel "S1"]) ∧
    pyRound1 0 = 0 ∧
    validate_analysis_payload (mkPayload 100 [mkSrc "S1"]) =
      Except.ok (mkModel (pyRound1 100) [mkSrcModel "S1"]) ∧
    pyRound1 100 = 100 ∧
    validate_analysis_payload (mkPayload 150 [mkSrc "S1"]) =
      Except.error "confidence_pct must be between 0 and 100" ∧
    (∀ (kvs : List (String × JVal)) (q : ℚ) (m : AnalysisModel),
        objGet kvs "confidence_pct" = some (.num q) →
        validate_analysis_payload (.obj kvs) = Except.ok m →
        m.confidence_pct = pyRound1 q) := by
  refine ⟨?_, rfl, by decide, rfl, by decide, rfl, ?_⟩
  · intro kvs q m hq hout hok
    obtain ⟨q', srcs, hconf, h0, h100, _⟩ := validate_fields_ok hok
    have hqq : q' = q := confField_num hq hconf
    subst hqq
    rcases hout with hlt | hgt
    · exact absurd h0 (not_le.mpr hlt)
    · exact absurd h100 (not_le.mpr hgt)
  · intro kvs q m hq hok
    obtain ⟨q', srcs, hconf, _, _, hr, _⟩ := validate_fields_ok hok
    have hqq : q' = q := confField_num hq hconf
    rw [hr, hqq]

/-- C5 witness: the universally quantified parts of the claim evaluated at
concrete inputs (rejection of confidence 150; rounding of 62.35 to one
decimal on acceptance). -/
theorem C5_confidence_witness :
    validate_analysis_payload (.obj (mkPayloadKvs 150 [mkSrc "S1"])) ≠
      Except.ok (mkModel (pyRound1 50) [mkSrcModel "S1"]) ∧
    (mkModel (pyRound1 (mkRat 1247 20)) [mkSrcModel "S1"]).confidence_pct =
      pyRound1 (mkRat 1247 20) := by
  constructor
  · exact C5_confidence_bounds_and_rounding.1 (mkPayloadKvs 150 [mkSrc "S1"]) 150
      (mkModel (pyRound1 50) [mkSrcModel "S1"]) rfl (Or.inr (by norm_num))
  · exact C5_confidence_bounds_and_rounding.2.2.2.2.2.2
      (mkPayloadKvs (mkRat 1247 20) [mkSrc "S1"]) (mkRat 1247 20)
      (mkModel (pyRound1 (mkRat 1247 20)) [mkSrcModel "S1"]) rfl rfl

/-- C6: on every accepted payload, an empty sources list is replaced by
exactly the single fallback source (id SRC_FALLBACK, fixed title, empty
url, type market, sentiment neutral), and a sources list longer than 10 is
truncated to its first 10 entries in order. -/
theorem C6_source_default_and_cap :
    ∀ (kvs : List (String × JVal)) (m : AnalysisModel) (srcs : List SourceModel),
      validate_analysis_payload (.obj kvs) = Except.ok m →
      sourcesField kvs = Except.ok srcs →
      (srcs = [] →
        m.sources = [{ id := "SRC_FALLBACK", title := "Analysis based on market data",
                       url := "", type := "market", sentiment := "neutral",
                       timestamp := none }]) ∧
      (10 < srcs.length → m.sources = srcs.take 10) := by
  intro kvs m srcs hok hsrcs
  obtain ⟨q, srcs', _, _, _, _, hs', hm, _⟩ := validate_fields_ok hok
  rw [hsrcs] at hs'
  injection hs' with hs'
  subst hs'
  constructor
  · intro he
    subst he
    rw [hm]
    rfl
  · intro hlen
    rw [hm]
    unfold require_sources
    rw [if_neg, if_pos hlen]
    intro hemp
    rw [List.isEmpty_iff] at hemp
    subst hemp
    simp at hlen

/-- C6 witness: the claim evaluated on a concrete payload with zero
sources and one with fourteen sources. -/
theorem C6_source_witness :
    (mkModel (pyRound1 50) [fallbackSource]).sources =
      [{ id := "SRC_FALLBACK", title := "Analysis based on market data",
         url := "", type := "market", sentiment := "neutral",
         timestamp := none }] ∧
    (mkModel (pyRound1 50)
        (((List.range 14).map (fun i => mkSrcModel (toString i))).take 10)).sources =
      ((List.range 14).map (fun i => mkSrcModel (toString i))).take 10 := by
  constructor
  · exact (C6_source_default_and_cap (mkPayloadKvs 50 [])
      (mkModel (pyRound1 50) [fallbackSource]) [] rfl rfl).1 rfl
  · exact (C6_source_default_and_cap
      (mkPayloadKvs 50 ((List.range 14).map (fun i => mkSrc (toString i))))
      (mkModel (pyRound1 50) (((List.range 14).map (fun i => mkSrcModel (toString i))).take 10))
      ((List.range 14).map (fun i => mkSrcModel (toString i)))
      (by rfl) (by rfl)).2 (by decide)

/-- C10: every model produced by the validator carries between 1 and 10
sources, and a payload whose parsed sources list already has between 1 and
10 entries keeps it unchanged and in order. -/
theorem C10_sources_length_invariant :
    (∀ (p : JVal) (m : AnalysisModel),
        validate_analysis_payload p = Except.ok m →
        1 ≤ m.sources.length ∧ m.sources.length ≤ 10) ∧
    (∀ (kvs : List (String × JVal)) (m : AnalysisModel) (srcs : List SourceModel),
        validate_analysis_payload (.obj kvs) = Except.ok m →
        sourcesField kvs = Except.ok srcs →
        1 ≤ srcs.length → srcs.length ≤ 10 → m.sources = srcs) := by
  constructor
  · intro p m hok
    cases p with
    | obj kvs =>
      obtain ⟨q, srcs, _, _, _, _, _, hm, _⟩ := validate_fields_ok hok
      rw [hm]
      exact require_sources_length srcs
    | null => exact Except.noConfusion hok
    | bool b => exact Except.noConfusion hok
    | num q => exact Except.noConfusion hok
    | str s => exact Except.noConfusion hok
    | arr xs => exact Except.noConfusion hok
  · intro kvs m srcs hok hsrcs h1 h10
    obtain ⟨q, srcs', _, _, _, _, hs', hm, _⟩ := validate_fields_ok hok
    rw [hsrcs] at hs'
    injection hs' with hs'
    subst hs'
    rw [hm]
    apply require_sources_id
    · intro he
      subst he
      simp at h1
    · exact h10

/-- C10 witness: both parts evaluated on a concrete payload with three
sources. -/
theorem C10_sources_witness :
    (1 ≤ (mkModel (pyRound1 50) [mkSrcModel "A", mkSrcModel "B", mkSrcModel "C"]).sources.length ∧
      (mkModel (pyRound1 50) [mkSrcModel "A", mkSrcModel "B", mkSrcModel "C"]).sources.length ≤ 10) ∧
    (mkModel (pyRound1 50) [mkSrcModel "A", mkSrcModel "B", mkSrcModel "C"]).sources =
      [mkSrcModel "A", mkSrcModel "B", mkSrcModel "C"] := by
  constructor
  · exact C10_sources_length_invariant.1
      (mkPayload 50 [mkSrc "A", mkSrc "B", mkSrc "C"])
      (mkModel (pyRound1 50) [mkSrcModel "A", mkSrcModel "B", mkSrcModel "C"]) rfl
  · exact C10_sources_length_invariant.2
      (mkPayloadKvs 50 [mkSrc "A", mkSrc "B", mkSrc "C"])
      (mkModel (pyRound1 50) [mkSrcModel "A", mkSrcModel "B", mkSrcModel "C"])
      [mkSrcModel "A", mkSrcModel "B", mkSrcModel "C"] rfl rfl (by decide) (by decide)

/-! Claim about the renderer: C8. -/

/-- The claim's condition: the model's `metadata.mode` equals `"deep"`. -/
def metadataModeDeep (m : AnalysisModel) : Bool :=
  match m.metadata with
  | some kvs =>
    (match objGet kvs "mode" with
     | some (.str s) => s = "deep"
     | _ => false)
  | none => false

/-- A successful lookup needs a nonempty dict. -/
theorem objGet_ne_nil {kvs : List (String × JVal)} {k : String} {v : JVal}
    (h : objGet kvs k = some v) : kvs ≠ [] := by
  intro he
  subst he
  exact Option.noConfusion h

/-- The renderer's truthiness-guarded mode test agrees with the claim's
plain mode test. -/
theorem metaTruthyDeep_eq (m : AnalysisModel) :
    metaTruthyDeep m.metadata = metadataModeDeep m := by
  unfold metaTruthyDeep metadataModeDeep
  cases m.metadata with
  | none => rfl
  | some kvs =>
    cases hm : objGet kvs "mode" with
    | none => simp [hm]
    | some v =>
      cases v with
      | str s =>
        have : kvs ≠ [] := objGet_ne_nil hm
        simp [hm, List.isEmpty_iff, this]
      | null => simp [hm]
      | bool b => simp [hm]
      | num q => simp [hm]
      | arr xs => simp [hm]
      | obj o => simp [hm]

/-- C8: the rendered drivers section holds at most 5 driver items when
`metadata.mode` is `"deep"` and at most 3 otherwise, and every rendered
driver line is the driver's text plus its citation list, with `n/a` when
the driver cites no sources. -/
theorem C8_driver_cap_and_rendering :
    ∀ (m : AnalysisModel),
      (metadataModeDeep m = true → (driverLines m).length ≤ 5) ∧
      (metadataModeDeep m = false → (driverLines m).length ≤ 3) ∧
      (∀ ln ∈ driverLines m, ∃ d ∈ m.key_drivers,
        ln = "- " ++ d.text ++ " _(sources: " ++
          (if d.source_ids.isEmpty then "n/a" else commaJoin d.source_ids) ++ ")_") := by
  intro m
  have hmax : max_drivers m = if metadataModeDeep m then 5 else 3 := by
    unfold max_drivers
    rw [metaTruthyDeep_eq]
  refine ⟨?_, ?_, ?_⟩
  · intro hd
    unfold driverLines
    rw [List.length_map, hmax, hd]
    simp [List.length_take]
  · intro hd
    unfold driverLines
    rw [List.length_map, hmax, hd]
    simp [List.length_take]
  · intro ln hln
    unfold driverLines at hln
    obtain ⟨d, hd, hrd⟩ := List.mem_map.mp hln
    exact ⟨d, List.take_subset _ _ hd, hrd.symm⟩

/-- C8 witness: the cap and the line format evaluated on a concrete
non-deep model with one driver citing nothing. -/
theorem C8_driver_witness :
    (driverLines (mkModel (pyRound1 50) [mkSrcModel "S1"])).length ≤ 3 :=
  (C8_driver_cap_and_rendering (mkModel (pyRound1 50) [mkSrcModel "S1"])).2.1 rfl

/-! Claims about the orchestrator: C1, C2, C3, C7. -/

/-- A concrete market record for closed checks. -/
def cexMarket : MarketData :=
  { market_id := "m1", title := "T", category := none, rules := none,
    deadline := none, liquidity := none, volume_24h := none,
    source := "polymarket", url := "https://example.com/m",
    prices := { yes := none, no := none } }

/-- A concrete request of the given depth for closed checks. -/
def cexReq (depth : String) : AnalysisRequest :=
  { market := cexMarket, context := { resolution_rules := none, comments := [] },
    signals := [], depth := depth, perspective := "neutral" }

/-- Concrete settings with an API key and offline mode off. -/
def onlineSettings : Settings :=
  { llm := { model := "gpt", api_key := some "k", temperature := 0, max_tokens := 2048 },
    app := { offline_mode := false } }

/-- Concrete settings without an API key. -/
def keylessSettings : Settings :=
  { llm := { model := "gpt", api_key := none, temperature := 0, max_tokens := 2048 },
    app := { offline_mode := false } }

/-- C1: the guaranteed-fallback claim fails on the code — on an input
where every structural parse attempt fails, `_parse_response_json` falls
off the end and returns Python `None`, not a SRC_PARSE_ERROR fallback
document (the fallback literal sits in a second, unreachable
`except json.JSONDecodeError` arm shadowed by the first). -/
theorem C1_no_fallback_document :
    parse_response_json "I cannot help with that request." = none := by rfl

/-- C2 counterexample: in deep mode a completion-call exception is not
caught by the orchestrator — it propagates out of `run_analysis`. -/
theorem C2_deep_error_counterexample :
    run_analysis true (fun _ => Except.error "boom") (cexReq "deep") onlineSettings =
      Except.error "boom" := rfl

/-- C2 (amended): a completion error is caught and converted to the
deterministic SRC_ERROR result only in quick mode; in deep mode an error
from any of the three completion calls — plan, critique or final —
propagates out of `run_analysis` uncaught. -/
theorem C2_completion_error_handling :
    ∀ (req : AnalysisRequest) (settings : Settings) (comp : Completion) (e : String),
      settings.app.offline_mode = false →
      truthyOptStr settings.llm.api_key = true →
      (req.depth ≠ "deep" → comp 0 = Except.error e →
        run_analysis true comp req settings =
          Except.ok (create_error_response ("LLM API error: " ++ e))) ∧
      (req.depth = "deep" → comp 0 = Except.error e →
        run_analysis true comp req settings = Except.error e) ∧
      (∀ c0, req.depth = "deep" → comp 0 = Except.ok c0 → comp 1 = Except.error e →
        run_analysis true comp req settings = Except.error e) ∧
      (∀ c0 c1, req.depth = "deep" → comp 0 = Except.ok c0 → comp 1 = Except.ok c1 →
        comp 2 = Except.error e →
        run_analysis true comp req settings = Except.error e) ∧
      (create_error_response ("LLM API error: " ++ e)).get "verdict" = some (.str "UNCERTAIN") ∧
      (create_error_response ("LLM API error: " ++ e)).get "confidence_pct" = some (.num 50) ∧
      (create_error_response ("LLM API error: " ++ e)).get "sources" =
        some (.arr [.obj [("id", .str "SRC_ERROR"), ("title", .str "Error"),
          ("url", .str ""), ("type", .str "news"), ("sentiment", .str "neutral")]]) ∧
      (create_error_response ("LLM API error: " ++ e)).get "metadata" =
        some (.obj [("error", .bool true), ("error_message", .str ("LLM API error: " ++ e))]) := by
  intro req settings comp e hoff htru
  have hc : (settings.app.offline_mode || !true || !truthyOptStr settings.llm.api_key) = false := by
    simp [hoff, htru]
  refine ⟨?_, ?_, ?_, ?_, rfl, rfl, rfl, rfl⟩
  · intro hd hcomp
    simp only [run_analysis, hc, Bool.false_eq_true, if_false, if_neg hd]
    simp only [run_quick_analysis, hcomp]
  · intro hd hcomp
    simp only [run_analysis, hc, Bool.false_eq_true, if_false, if_pos hd]
    simp only [run_deep_analysis, hcomp, bind, Except.bind]
  · intro c0 hd h0 h1
    simp only [run_analysis, hc, Bool.false_eq_true, if_false, if_pos hd]
    simp only [run_deep_analysis, h0, h1, bind, Except.bind]
  · intro c0 c1 hd h0 h1 h2
    simp only [run_analysis, hc, Bool.false_eq_true, if_false, if_pos hd]
    simp only [run_deep_analysis, h0, h1, h2, bind, Except.bind]

/-- A completion oracle whose plan call succeeds and whose critique call
fails. -/
def c2FailCrit : Completion :=
  fun n => if n = 0 then Except.ok "p" else Except.error "boom"

/-- A completion oracle whose plan and critique calls succeed and whose
final call fails. -/
def c2FailFinal : Completion :=
  fun n => if n = 2 then Except.error "boom" else Except.ok "p"

/-- C2 witness: the amended claim evaluated at a concrete quick request
with a failing backend, and at concrete deep requests where the plan,
the critique and the final call respectively fail. -/
theorem C2_completion_error_witness :
    run_analysis true (fun _ => Except.error "boom") (cexReq "quick") onlineSettings =
      Except.ok (create_error_response "LLM API error: boom") ∧
    run_analysis true (fun _ => Except.error "boom") (cexReq "deep") onlineSettings =
      Except.error "boom" ∧
    run_analysis true c2FailCrit (cexReq "deep") onlineSettings = Except.error "boom" ∧
    run_analysis true c2FailFinal (cexReq "deep") onlineSettings = Except.error "boom" := by
  refine ⟨?_, ?_, ?_, ?_⟩
  · exact (C2_completion_error_handling (cexReq "quick") onlineSettings
      (fun _ => Except.error "boom") "boom" rfl rfl).1 (by decide) rfl
  · exact (C2_completion_error_handling (cexReq "deep") onlineSettings
      (fun _ => Except.error "boom") "boom" rfl rfl).2.1 rfl rfl
  · exact (C2_completion_error_handling (cexReq "deep") onlineSettings
      c2FailCrit "boom" rfl rfl).2.2.1 "p" rfl rfl rfl
  · exact (C2_completion_error_handling (cexReq "deep") onlineSettings
      c2FailFinal "boom" rfl rfl).2.2.2.1 "p" "p" rfl rfl rfl rfl

/-- C7: with offline mode set, no completion backend, or no usable API
key, `run_analysis` short-circuits to the deterministic offline stub
(verdict UNCERTAIN, confidence 50.0, metadata offline=true), and the
result does not depend on the completion oracle at all. -/
theorem C7_offline_stub :
    ∀ (avail : Bool) (comp comp2 : Completion) (req : AnalysisRequest) (settings : Settings),
      (settings.app.offline_mode = true ∨ avail = false ∨
        truthyOptStr settings.llm.api_key = false) →
      run_analysis avail comp req settings = Except.ok (offline_analysis req) ∧
      run_analysis avail comp req settings = run_analysis avail comp2 req settings ∧
      (offline_analysis req).get "verdict" = some (.str "UNCERTAIN") ∧
      (offline_analysis req).get "confidence_pct" = some (.num 50) ∧
      (offline_analysis req).get "metadata" = some (.obj [("offline", .bool true)]) := by
  intro avail comp comp2 req settings hcond
  have hc : (settings.app.offline_mode || !avail || !truthyOptStr settings.llm.api_key) = true := by
    rcases hcond with h | h | h <;> simp [h]
  refine ⟨?_, ?_, rfl, rfl, rfl⟩
  · simp only [run_analysis, hc, if_true]
  · simp only [run_analysis, hc, if_true]

/-- C7 witness: the offline stub evaluated at a concrete keyless
configuration, with two different oracles. -/
theorem C7_offline_witness :
    run_analysis true (fun _ => Except.error "x") (cexReq "quick") keylessSettings =
      Except.ok (offline_analysis (cexReq "quick")) ∧
    run_analysis true (fun _ => Except.error "x") (cexReq "quick") keylessSettings =
      run_analysis true (fun _ => Except.ok "y") (cexReq "quick") keylessSettings := by
  have h := C7_offline_stub true (fun _ => Except.error "x") (fun _ => Except.ok "y")
    (cexReq "quick") keylessSettings (Or.inr (Or.inr rfl))
  exact ⟨h.1, h.2.1⟩

/-- A deep-mode final completion text that parses to a document with all
five required keys but an out-of-range confidence. -/
def c3FinalText : String :=
  "\x7b\"verdict\": \"YES\", \"confidence_pct\": 150, \"summary\": \"s\", \"key_drivers\": [], \"sources\": []\x7d"

/-- A completion oracle whose plan and critique stages return prose and
whose final stage returns `c3FinalText`. -/
def c3Comp : Completion :=
  fun n => if n = 2 then Except.ok c3FinalText else Except.ok "no json here"

/-- The parsed fields of `c3FinalText`. -/
def c3Kvs : List (String × JVal) :=
  [("verdict", .str "YES"), ("confidence_pct", .num 150), ("summary", .str "s"),
   ("key_drivers", .arr []), ("sources", .arr [])]

/-- The document the deep pipeline returns for `c3Comp`: the final output
passed through unchanged, with only metadata attached. -/
def c3Expected : JVal :=
  .obj (c3Kvs ++
    [("metadata", .obj [("mode", .str "deep"), ("plan", .arr []),
      ("critique", .obj [("gaps", .arr []), ("follow_up_queries", .arr [])])])])

/-- C3 counterexample: the deep final stage does not run the schema
validator — a final output with all five keys but confidence 150 is
returned as-is (its sources stay empty, no SRC_FORMAT_ERROR sentinel is
substituted), and schema validation of that result fails downstream. -/
theorem C3_no_schema_check_counterexample :
    run_analysis true c3Comp (cexReq "deep") onlineSettings = Except.ok c3Expected ∧
    validate_analysis_payload c3Expected =
      Except.error "confidence_pct must be between 0 and 100" ∧
    c3Expected.get "sources" = some (.arr []) := by
  refine ⟨by rfl, by rfl, by rfl⟩

/-- The metadata object the deep stage builds on top of a pre-existing
metadata dict `md`, from the plan text `c0` and the critique text `c1`
(lines 263-269). -/
def attachedMeta (md : List (String × JVal)) (c0 c1 : String) : List (String × JVal) :=
  dictSet (dictSet (dictSet md "mode" (.str "deep")) "plan"
    (((planOf c0).get "analysis_plan").getD (.arr []))) "critique"
    (.obj [("gaps", ((critiqueOf c1).get "gaps").getD (.arr [])),
           ("follow_up_queries", ((critiqueOf c1).get "follow_up_queries").getD (.arr []))])

/-- C3 (amended): the deep final stage substitutes the SRC_FORMAT_ERROR
fallback exactly when the extractor yields no document for the final text
(which, by the extractor's own key check, covers every output missing one
of the five required keys).  An extracted output — necessarily carrying
all five keys — whose `metadata` entry is absent or a dict is passed
through with only metadata attached, even when it violates schema
invariants, so a SchemaError surfaces downstream of `run_analysis`
instead; when its `metadata` value is a non-dict the metadata item
assignment raises (TypeError) out of `run_analysis`. -/
theorem C3_format_fallback_scope :
    ∀ (req : AnalysisRequest) (settings : Settings) (comp : Completion)
      (c0 c1 c2 : String) (kvs : List (String × JVal)),
      settings.app.offline_mode = false →
      truthyOptStr settings.llm.api_key = true →
      req.depth = "deep" →
      comp 0 = Except.ok c0 → comp 1 = Except.ok c1 → comp 2 = Except.ok c2 →
      (parse_response_json c2 = some (.obj kvs) →
        (missingFields (.obj kvs)).isEmpty = true → objGet kvs "metadata" = none →
        run_analysis true comp req settings =
          Except.ok (objSet (.obj kvs) "metadata" (.obj (attachedMeta [] c0 c1)))) ∧
      (∀ m, parse_response_json c2 = some (.obj kvs) →
        (missingFields (.obj kvs)).isEmpty = true →
        objGet kvs "metadata" = some (.obj m) →
        run_analysis true comp req settings =
          Except.ok (objSet (.obj kvs) "metadata" (.obj (attachedMeta m c0 c1)))) ∧
      (∀ v, parse_response_json c2 = some (.obj kvs) →
        (missingFields (.obj kvs)).isEmpty = true →
        objGet kvs "metadata" = some v → (∀ m, v ≠ JVal.obj m) →
        run_analysis true comp req settings =
          Except.error "TypeError: metadata does not support item assignment") ∧
      (parse_response_json c2 = none →
        run_analysis true comp req settings =
          Except.ok (objSet format_error_fallback "metadata" (.obj (attachedMeta [] c0 c1)))) ∧
      (∀ md, (objSet (.obj kvs) "metadata" (.obj md)).get "sources" = objGet kvs "sources" ∧
        (objSet (.obj kvs) "metadata" (.obj md)).get "verdict" = objGet kvs "verdict" ∧
        (objSet (.obj kvs) "metadata" (.obj md)).get "confidence_pct" =
          objGet kvs "confidence_pct") := by
  intro req settings comp c0 c1 c2 kvs hoff htru hd hc0 hc1 hc2
  have hc : (settings.app.offline_mode || !true || !truthyOptStr settings.llm.api_key) = false := by
    simp [hoff, htru]
  have hrun : run_analysis true comp req settings = run_deep_analysis comp req settings := by
    simp only [run_analysis, hc, Bool.false_eq_true, if_false, if_pos hd]
  refine ⟨?_, ?_, ?_, ?_, ?_⟩
  · intro hparse hmiss hmd
    rw [hrun]
    simp only [run_deep_analysis, hc0, hc1, hc2, bind, Except.bind, hparse, dictOr, hmiss,
      if_true]
    unfold deepMeta attachedMeta
    simp only [JVal.get, hmd, bind, Except.bind]
  · intro m hparse hmiss hmd
    rw [hrun]
    simp only [run_deep_analysis, hc0, hc1, hc2, bind, Except.bind, hparse, dictOr, hmiss,
      if_true]
    unfold deepMeta attachedMeta
    simp only [JVal.get, hmd, bind, Except.bind]
  · intro v hparse hmiss hmd hne
    rw [hrun]
    simp only [run_deep_analysis, hc0, hc1, hc2, bind, Except.bind, hparse, dictOr, hmiss,
      if_true]
    unfold deepMeta
    cases v with
    | obj m => exact absurd rfl (hne m)
    | null => simp only [JVal.get, hmd, bind, Except.bind]
    | bool b => simp only [JVal.get, hmd, bind, Except.bind]
    | num q => simp only [JVal.get, hmd, bind, Except.bind]
    | str s => simp only [JVal.get, hmd, bind, Except.bind]
    | arr a => simp only [JVal.get, hmd, bind, Except.bind]
  · intro hparse
    rw [hrun]
    simp only [run_deep_analysis, hc0, hc1, hc2, bind, Except.bind, hparse, dictOr]
    rfl
  · intro md
    refine ⟨?_, ?_, ?_⟩
    · show (JVal.obj (dictSet kvs "metadata" _)).get "sources" = _
      exact objGet_dictSet_ne kvs "metadata" "sources" _ (by decide)
    · show (JVal.obj (dictSet kvs "metadata" _)).get "verdict" = _
      exact objGet_dictSet_ne kvs "metadata" "verdict" _ (by decide)
    · show (JVal.obj (dictSet kvs "metadata" _)).get "confidence_pct" = _
      exact objGet_dictSet_ne kvs "metadata" "confidence_pct" _ (by decide)

/-- A deep-mode final text with all five keys and a dict `metadata`
entry carrying a pre-existing item. -/
def c3MetaText : String :=
  "\x7b\"verdict\": \"YES\", \"confidence_pct\": 150, \"summary\": \"s\", \"key_drivers\": [], \"sources\": [], \"metadata\": \x7b\"note\": \"x\"\x7d\x7d"

/-- The parsed fields of `c3MetaText`. -/
def c3MetaKvs : List (String × JVal) :=
  c3Kvs ++ [("metadata", .obj [("note", .str "x")])]

/-- A completion oracle whose final stage returns `c3MetaText`. -/
def c3CompMeta : Completion :=
  fun n => if n = 2 then Except.ok c3MetaText else Except.ok "no json here"

/-- A deep-mode final text with all five keys but a string `metadata`
value (item assignment on it raises). -/
def c3BadText : String :=
  "\x7b\"verdict\": \"YES\", \"confidence_pct\": 150, \"summary\": \"s\", \"key_drivers\": [], \"sources\": [], \"metadata\": \"x\"\x7d"

/-- The parsed fields of `c3BadText`. -/
def c3BadKvs : List (String × JVal) :=
  c3Kvs ++ [("metadata", .str "x")]

/-- A completion oracle whose final stage returns `c3BadText`. -/
def c3CompBad : Completion :=
  fun n => if n = 2 then Except.ok c3BadText else Except.ok "no json here"

/-- A deep-mode final text whose body parses but misses required keys, so
the extractor's own key check makes it yield no document. -/
def c3MissText : String := "\x7b\"verdict\": \"YES\"\x7d"

/-- A completion oracle whose final stage returns `c3MissText`. -/
def c3CompMiss : Completion :=
  fun n => if n = 2 then Except.ok c3MissText else Except.ok "no json here"

set_option maxRecDepth 4096 in
/-- C3 witness: the amended claim evaluated at four concrete deep runs —
metadata absent, metadata a dict, metadata a string (raises), and a
final output missing required keys (fallback substituted). -/
theorem C3_format_fallback_witness :
    run_analysis true c3Comp (cexReq "deep") onlineSettings =
      Except.ok (objSet (.obj c3Kvs) "metadata"
        (.obj (attachedMeta [] "no json here" "no json here"))) ∧
    run_analysis true c3CompMeta (cexReq "deep") onlineSettings =
      Except.ok (objSet (.obj c3MetaKvs) "metadata"
        (.obj (attachedMeta [("note", .str "x")] "no json here" "no json here"))) ∧
    run_analysis true c3CompBad (cexReq "deep") onlineSettings =
      Except.error "TypeError: metadata does not support item assignment" ∧
    run_analysis true c3CompMiss (cexReq "deep") onlineSettings =
      Except.ok (objSet format_error_fallback "metadata"
        (.obj (attachedMeta [] "no json here" "no json here"))) := by
  refine ⟨?_, ?_, ?_, ?_⟩
  · exact (C3_format_fallback_scope (cexReq "deep") onlineSettings c3Comp
      "no json here" "no json here" c3FinalText c3Kvs
      rfl rfl rfl rfl rfl rfl).1 (by rfl) (by rfl) (by rfl)
  · exact (C3_format_fallback_scope (cexReq "deep") onlineSettings c3CompMeta
      "no json here" "no json here" c3MetaText c3MetaKvs
      rfl rfl rfl rfl rfl rfl).2.1 [("note", .str "x")] (by rfl) (by rfl) (by rfl)
  · exact (C3_format_fallback_scope (cexReq "deep") onlineSettings c3CompBad
      "no json here" "no json here" c3BadText c3BadKvs
      rfl rfl rfl rfl rfl rfl).2.2.1 (.str "x") (by rfl) (by rfl) (by rfl)
      (fun m h => JVal.noConfusion h)
  · exact (C3_format_fallback_scope (cexReq "deep") onlineSettings c3CompMiss
      "no json here" "no json here" c3MissText [("verdict", .str "YES")]
      rfl rfl rfl rfl rfl rfl).2.2.2.1 (by rfl)

/-! Suffix lemmas for the JSON parser (toward the fence-stripping claim). -/

/-- `r` is a suffix of `l` (what a parser may leave unconsumed). -/
def isTail (r l : List Char) : Prop := ∃ pre, l = pre ++ r

theorem isTail_refl (l : List Char) : isTail l l := ⟨[], rfl⟩

theorem isTail_trans {a b c : List Char} (h1 : isTail a b) (h2 : isTail b c) :
    isTail a c := by
  obtain ⟨p1, hp1⟩ := h1
  obtain ⟨p2, hp2⟩ := h2
  exact ⟨p2 ++ p1, by rw [hp2, hp1, List.append_assoc]⟩

theorem isTail_cons {r l : List Char} {c : Char} (h : isTail r l) :
    isTail r (c :: l) := by
  obtain ⟨p, hp⟩ := h
  exact ⟨c :: p, by rw [hp]; rfl⟩

theorem isTail_tail (c : Char) (l : List Char) : isTail l (c :: l) := ⟨[c], rfl⟩

theorem isTail_dropWhile (p : Char → Bool) (l : List Char) :
    isTail (l.dropWhile p) l :=
  ⟨l.takeWhile p, (List.takeWhile_append_dropWhile p l).symm⟩

/-- The string-body scanner only consumes a prefix. -/
theorem parseStringBody_tail (l : List Char) :
    ∀ s r, parseStringBody l = some (s, r) → isTail r l := by
  induction l using parseStringBody.induct with
  | case1 =>
    intro s r h
    exact Option.noConfusion h
  | case2 rest2 =>
    intro s r h
    rw [parseStringBody.eq_def] at h
    simp at h
    rw [← h.2]
    exact isTail_tail _ _
  | case3 hne =>
    intro s r h
    exact Option.noConfusion h
  | case4 h1 h2 h3 h4 rest3 a b c2 d ha hb hc hd hne ih =>
    intro s r h
    rw [parseStringBody.eq_def] at h
    simp [ha, hb, hc, hd, Option.map_eq_some'] at h
    obtain ⟨s3, hp, hval⟩ := h
    exact isTail_cons (isTail_cons (isTail_cons (isTail_cons (isTail_cons (isTail_cons (ih _ _ hp))))))
  | case5 h1 h2 h3 h4 rest3 hfail hne =>
    intro s r h
    rw [parseStringBody.eq_def] at h
    cases hh1 : hexVal h1 with
    | none => simp [hh1] at h
    | some a =>
      cases hh2 : hexVal h2 with
      | none => simp [hh1, hh2] at h
      | some b =>
        cases hh3 : hexVal h3 with
        | none => simp [hh1, hh2, hh3] at h
        | some c2 =>
          cases hh4 : hexVal h4 with
          | none => simp [hh1, hh2, hh3, hh4] at h
          | some d => exact (hfail a b c2 d hh1 hh2 hh3 hh4).elim
  | case6 rest2 hshape hne =>
    intro s r h
    rw [parseStringBody.eq_def] at h
    match rest2, h with
    | h1 :: h2 :: h3 :: h4 :: rest3, h => exact (hshape h1 h2 h3 h4 rest3 rfl).elim
    | [], h => simp at h
    | [x], h => simp at h
    | [x, y], h => simp at h
    | [x, y, z], h => simp at h
  | case7 e rest2 hneu ec hec hne ih =>
    intro s r h
    rw [parseStringBody.eq_def] at h
    simp [hneu, hec, Option.map_eq_some'] at h
    obtain ⟨s2, hp, hval⟩ := h
    exact isTail_cons (isTail_cons (ih _ _ hp))
  | case8 e rest2 hneu hec hne =>
    intro s r h
    rw [parseStringBody.eq_def] at h
    simp [hneu, hec] at h
  | case9 e rest2 hnq hnb hlt =>
    intro s r h
    rw [parseStringBody.eq_def] at h
    simp [hnq, hnb, hlt] at h
  | case10 e rest2 hnq hnb hge ih =>
    intro s r h
    rw [parseStringBody.eq_def] at h
    simp [hnq, hnb, hge, Option.map_eq_some'] at h
    obtain ⟨s2, hp, hval⟩ := h
    exact isTail_cons (ih _ _ hp)


theorem parseExpSign_tail (rest : List Char) : isTail (parseExpSign rest).2 rest := by
  unfold parseExpSign
  split
  · exact isTail_tail _ _
  · exact isTail_tail _ _
  · exact isTail_refl _

theorem takeDigits_tail (l : List Char) : isTail (takeDigits l).2 l := by
  unfold takeDigits
  exact isTail_dropWhile _ _

theorem parseExp_tail {rest orig : List Char} (h : isTail rest orig) :
    isTail (parseExp rest orig).2 orig := by
  unfold parseExp
  split
  next heq => exact isTail_refl _
  next ds r2 hcond heq =>
    have hr2 : r2 = (takeDigits (parseExpSign rest).2).2 := by rw [heq]
    show isTail r2 orig
    rw [hr2]
    exact isTail_trans (takeDigits_tail _) (isTail_trans (parseExpSign_tail rest) h)

theorem parseFrac_tail (l : List Char) : isTail (parseFrac l).2 l := by
  unfold parseFrac
  split
  next rest =>
    split
    next heq => exact isTail_refl _
    next ds r hcond heq =>
      have hr : r = (takeDigits rest).2 := by rw [heq]
      show isTail r _
      rw [hr]
      exact isTail_cons (takeDigits_tail rest)
  next => exact isTail_refl _

theorem parseExpPart_tail (l : List Char) : isTail (parseExpPart l).2 l := by
  unfold parseExpPart
  split
  next rest => exact parseExp_tail (isTail_tail _ _)
  next rest => exact parseExp_tail (isTail_tail _ _)
  next => exact isTail_refl _

theorem parseNumTail_tail (neg : Bool) (ip : Nat) (l : List Char) :
    isTail (parseNumTail neg ip l).2 l := by
  unfold parseNumTail
  exact isTail_trans (parseExpPart_tail _) (parseFrac_tail l)

theorem parseNumSign_tail (l : List Char) : isTail (parseNumSign l).2 l := by
  unfold parseNumSign
  split
  · exact isTail_tail _ _
  · exact isTail_refl _

theorem parseNumber_tail {l : List Char} {q : ℚ} {r : List Char}
    (h : parseNumber l = some (q, r)) : isTail r l := by
  unfold parseNumber at h
  split at h
  next rest heq =>
    injection h with h
    have hr : r = (parseNumTail (parseNumSign l).1 0 rest).2 := by rw [h]
    rw [hr]
    refine isTail_trans (parseNumTail_tail _ _ _) ?_
    refine isTail_trans ?_ (parseNumSign_tail l)
    rw [heq]
    exact isTail_tail _ _
  next c rest hcond heq =>
    split at h
    · injection h with h
      have hr : r = (parseNumTail (parseNumSign l).1
          (natOfDigits (c :: (takeDigits rest).1)) (takeDigits rest).2).2 := by rw [h]
      rw [hr]
      refine isTail_trans (parseNumTail_tail _ _ _) ?_
      refine isTail_trans (takeDigits_tail rest) ?_
      refine isTail_trans ?_ (parseNumSign_tail l)
      rw [heq]
      exact isTail_tail _ _
    · exact Option.noConfusion h
  next => exact Option.noConfusion h


theorem parseObjRest_tail {pm : List Char → Option (List (String × JVal) × List Char)}
    (hpm : ∀ l kvs r, pm l = some (kvs, r) → isTail r l)
    {rest : List Char} {v : JVal} {r : List Char}
    (h : parseObjRest pm rest = some (v, r)) : isTail r rest := by
  unfold parseObjRest at h
  split at h
  next r0 heq =>
    injection h with h
    injection h with h1 h2
    subst h2
    refine isTail_trans ?_ (isTail_dropWhile isJWs rest)
    rw [heq]
    exact isTail_tail _ _
  next heq =>
    obtain ⟨⟨kvs, r1⟩, hp, hval⟩ := Option.map_eq_some'.mp h
    injection hval with hv1 hv2
    subst hv2
    exact isTail_trans (hpm _ _ _ hp) (isTail_dropWhile isJWs rest)

theorem parseArrRest_tail {pi : List Char → Option (List JVal × List Char)}
    (hpi : ∀ l vs r, pi l = some (vs, r) → isTail r l)
    {rest : List Char} {v : JVal} {r : List Char}
    (h : parseArrRest pi rest = some (v, r)) : isTail r rest := by
  unfold parseArrRest at h
  split at h
  next r0 heq =>
    injection h with h
    injection h with h1 h2
    subst h2
    refine isTail_trans ?_ (isTail_dropWhile isJWs rest)
    rw [heq]
    exact isTail_tail _ _
  next heq =>
    obtain ⟨⟨vs, r1⟩, hp, hval⟩ := Option.map_eq_some'.mp h
    injection hval with hv1 hv2
    subst hv2
    exact isTail_trans (hpi _ _ _ hp) (isTail_dropWhile isJWs rest)

set_option maxHeartbeats 1600000 in
theorem parseValBody_tail {pm : List Char → Option (List (String × JVal) × List Char)}
    {pi : List Char → Option (List JVal × List Char)}
    (hpm : ∀ l kvs r, pm l = some (kvs, r) → isTail r l)
    (hpi : ∀ l vs r, pi l = some (vs, r) → isTail r l)
    {l : List Char} {v : JVal} {r : List Char}
    (h : parseValBody pm pi l = some (v, r)) : isTail r l := by
  rw [parseValBody.eq_def] at h
  split at h
  next rest => exact isTail_cons (parseObjRest_tail hpm h)
  next rest => exact isTail_cons (parseArrRest_tail hpi h)
  next rest =>
    obtain ⟨⟨s1, r1⟩, hp, hval⟩ := Option.map_eq_some'.mp h
    injection hval with hv1 hv2
    subst hv2
    exact isTail_cons (parseStringBody_tail rest _ _ hp)
  next rest =>
    injection h with h
    injection h with h1 h2
    subst h2
    exact isTail_cons (isTail_cons (isTail_cons (isTail_tail _ _)))
  next rest =>
    injection h with h
    injection h with h1 h2
    subst h2
    exact isTail_cons (isTail_cons (isTail_cons (isTail_cons (isTail_tail _ _))))
  next rest =>
    injection h with h
    injection h with h1 h2
    subst h2
    exact isTail_cons (isTail_cons (isTail_cons (isTail_tail _ _)))
  next l2 hne1 hne2 hne3 hne4 hne5 hne6 =>
    obtain ⟨⟨q1, r1⟩, hp, hval⟩ := Option.map_eq_some'.mp h
    injection hval with hv1 hv2
    subst hv2
    exact parseNumber_tail hp

theorem parseMembersBody_tail {pv : List Char → Option (JVal × List Char)}
    {pm : List Char → Option (List (String × JVal) × List Char)}
    (hpv : ∀ l v r, pv l = some (v, r) → isTail r l)
    (hpm : ∀ l kvs r, pm l = some (kvs, r) → isTail r l)
    {l : List Char} {kvs : List (String × JVal)} {r : List Char}
    (h : parseMembersBody pv pm l = some (kvs, r)) : isTail r l := by
  rw [parseMembersBody.eq_def] at h
  split at h
  next rest =>
    split at h
    next => exact Option.noConfusion h
    next k r1 heqs =>
      split at h
      next r2 heq1 =>
        split at h
        next => exact Option.noConfusion h
        next v2 r3 heqv =>
          split at h
          next r4 heq3 =>
            obtain ⟨⟨kvs2, r5⟩, hp, hval⟩ := Option.map_eq_some'.mp h
            injection hval with hv1 hv2
            subst hv2
            refine isTail_cons ?_
            refine isTail_trans (hpm _ _ _ hp) ?_
            refine isTail_trans (isTail_dropWhile isJWs _) ?_
            have h4 : isTail r4 (List.dropWhile isJWs r3) := by
              rw [heq3]
              exact isTail_tail _ _
            refine isTail_trans h4 ?_
            refine isTail_trans (isTail_dropWhile isJWs _) ?_
            refine isTail_trans (hpv _ _ _ heqv) ?_
            refine isTail_trans (isTail_dropWhile isJWs _) ?_
            have h2 : isTail r2 (List.dropWhile isJWs r1) := by
              rw [heq1]
              exact isTail_tail _ _
            refine isTail_trans h2 ?_
            refine isTail_trans (isTail_dropWhile isJWs _) ?_
            exact parseStringBody_tail rest _ _ heqs
          next r4 heq3 =>
            injection h with h
            injection h with h1 h2
            subst h2
            refine isTail_cons ?_
            have h4 : isTail r4 (List.dropWhile isJWs r3) := by
              rw [heq3]
              exact isTail_tail _ _
            refine isTail_trans h4 ?_
            refine isTail_trans (isTail_dropWhile isJWs _) ?_
            refine isTail_trans (hpv _ _ _ heqv) ?_
            refine isTail_trans (isTail_dropWhile isJWs _) ?_
            have h2 : isTail r2 (List.dropWhile isJWs r1) := by
              rw [heq1]
              exact isTail_tail _ _
            refine isTail_trans h2 ?_
            refine isTail_trans (isTail_dropWhile isJWs _) ?_
            exact parseStringBody_tail rest _ _ heqs
          next => exact Option.noConfusion h
      next => exact Option.noConfusion h
  next => exact Option.noConfusion h

theorem parseItemsBody_tail {pv : List Char → Option (JVal × List Char)}
    {pi : List Char → Option (List JVal × List Char)}
    (hpv : ∀ l v r, pv l = some (v, r) → isTail r l)
    (hpi : ∀ l vs r, pi l = some (vs, r) → isTail r l)
    {l : List Char} {vs : List JVal} {r : List Char}
    (h : parseItemsBody pv pi l = some (vs, r)) : isTail r l := by
  rw [parseItemsBody.eq_def] at h
  split at h
  next => exact Option.noConfusion h
  next v2 r0 heqv =>
    split at h
    next r2 heq =>
      obtain ⟨⟨vs2, r3⟩, hp, hval⟩ := Option.map_eq_some'.mp h
      injection hval with hv1 hv2
      subst hv2
      refine isTail_trans (hpi _ _ _ hp) ?_
      have h2 : isTail r2 (List.dropWhile isJWs r0) := by
        rw [heq]
        exact isTail_tail _ _
      refine isTail_trans h2 ?_
      refine isTail_trans (isTail_dropWhile isJWs _) ?_
      refine isTail_trans (hpv _ _ _ heqv) ?_
      exact isTail_dropWhile isJWs l
    next r2 heq =>
      injection h with h
      injection h with h1 h2
      subst h2
      have h2 : isTail r2 (List.dropWhile isJWs r0) := by
        rw [heq]
        exact isTail_tail _ _
      refine isTail_trans h2 ?_
      refine isTail_trans (isTail_dropWhile isJWs _) ?_
      refine isTail_trans (hpv _ _ _ heqv) ?_
      exact isTail_dropWhile isJWs l
    next => exact Option.noConfusion h

/-- All three mutually recursive parsers only consume a prefix. -/
theorem parse_tail (fuel : Nat) :
    (∀ l v r, parseValAt fuel l = some (v, r) → isTail r l) ∧
    (∀ l kvs r, parseMembers fuel l = some (kvs, r) → isTail r l) ∧
    (∀ l vs r, parseItems fuel l = some (vs, r) → isTail r l) := by
  induction fuel with
  | zero =>
    refine ⟨?_, ?_, ?_⟩ <;> intro l a r h <;> exact Option.noConfusion h
  | succ fuel ih =>
    obtain ⟨ihv, ihm, ihi⟩ := ih
    refine ⟨?_, ?_, ?_⟩
    · intro l v r h
      exact parseValBody_tail ihm ihi h
    · intro l kvs r h
      exact parseMembersBody_tail ihv ihm h
    · intro l vs r h
      exact parseItemsBody_tail ihv ihi h


/-- The last element of a right factor is the last element of the whole. -/
theorem getLast?_append_right {a b : List Char} {c : Char} (h : b.getLast? = some c) :
    (a ++ b).getLast? = some c := by
  have hb : b ≠ [] := by
    intro he
    subst he
    exact Option.noConfusion h
  rw [← List.head?_reverse] at h
  rw [← List.head?_reverse, List.reverse_append]
  cases hr : b.reverse with
  | nil =>
    exact absurd (List.reverse_eq_nil_iff.mp hr) hb
  | cons x xs =>
    rw [hr] at h
    rw [hr, List.cons_append, List.head?_cons] at *
    exact h

/-- A member list parse consumes text ending in a closing brace. -/
theorem parseMembersBody_brace {pv : List Char → Option (JVal × List Char)}
    {pm : List Char → Option (List (String × JVal) × List Char)}
    (hpv : ∀ l v r, pv l = some (v, r) → isTail r l)
    (hpm : ∀ l kvs r, pm l = some (kvs, r) →
      ∃ pre, l = pre ++ r ∧ pre.getLast? = some '}')
    {l : List Char} {kvs : List (String × JVal)} {r : List Char}
    (h : parseMembersBody pv pm l = some (kvs, r)) :
    ∃ pre, l = pre ++ r ∧ pre.getLast? = some '}' := by
  rw [parseMembersBody.eq_def] at h
  split at h
  next rest =>
    split at h
    next => exact Option.noConfusion h
    next k r1 heqs =>
      split at h
      next r2 heq1 =>
        split at h
        next => exact Option.noConfusion h
        next v2 r3 heqv =>
          split at h
          next r4 heq3 =>
            obtain ⟨⟨kvs2, r5⟩, hp, hval⟩ := Option.map_eq_some'.mp h
            injection hval with hv1 hv2
            subst hv2
            obtain ⟨pre2, hpre2, hlast2⟩ := hpm _ _ _ hp
            have ht : isTail (List.dropWhile isJWs r4) ('"' :: rest) := by
              refine isTail_cons ?_
              refine isTail_trans (isTail_dropWhile isJWs _) ?_
              have h4 : isTail r4 (List.dropWhile isJWs r3) := by
                rw [heq3]
                exact isTail_tail _ _
              refine isTail_trans h4 ?_
              refine isTail_trans (isTail_dropWhile isJWs _) ?_
              refine isTail_trans (hpv _ _ _ heqv) ?_
              refine isTail_trans (isTail_dropWhile isJWs _) ?_
              have h2 : isTail r2 (List.dropWhile isJWs r1) := by
                rw [heq1]
                exact isTail_tail _ _
              refine isTail_trans h2 ?_
              refine isTail_trans (isTail_dropWhile isJWs _) ?_
              exact parseStringBody_tail rest _ _ heqs
            obtain ⟨p1, hp1⟩ := ht
            refine ⟨p1 ++ pre2, ?_, getLast?_append_right hlast2⟩
            rw [hp1, hpre2, List.append_assoc]
          next r4 heq3 =>
            injection h with h
            injection h with h1 h2
            subst h2
            have ht : isTail ('}' :: r4) ('"' :: rest) := by
              refine isTail_cons ?_
              rw [← heq3]
              refine isTail_trans (isTail_dropWhile isJWs _) ?_
              refine isTail_trans (hpv _ _ _ heqv) ?_
              refine isTail_trans (isTail_dropWhile isJWs _) ?_
              have h2 : isTail r2 (List.dropWhile isJWs r1) := by
                rw [heq1]
                exact isTail_tail _ _
              refine isTail_trans h2 ?_
              refine isTail_trans (isTail_dropWhile isJWs _) ?_
              exact parseStringBody_tail rest _ _ heqs
            obtain ⟨p1, hp1⟩ := ht
            refine ⟨p1 ++ ['}'], ?_, getLast?_append_right rfl⟩
            rw [hp1]
            simp
          next => exact Option.noConfusion h
      next => exact Option.noConfusion h
  next => exact Option.noConfusion h

/-- Member-list parses at every fuel consume text ending in a closing
brace. -/
theorem parseMembers_brace (fuel : Nat) :
    ∀ l kvs r, parseMembers fuel l = some (kvs, r) →
      ∃ pre, l = pre ++ r ∧ pre.getLast? = some '}' := by
  induction fuel with
  | zero =>
    intro l kvs r h
    exact Option.noConfusion h
  | succ fuel ih =>
    intro l kvs r h
    exact parseMembersBody_brace (parse_tail fuel).1 ih h

/-- An object parse consumes text that starts with an opening brace and
ends with a closing brace. -/
theorem parseValAt_obj {fuel : Nat} {l : List Char} {kvs : List (String × JVal)}
    {r : List Char} (h : parseValAt fuel l = some (.obj kvs, r)) :
    (∃ t, l = '{' :: t) ∧ ∃ pre, l = pre ++ r ∧ pre.getLast? = some '}' := by
  match fuel with
  | 0 => exact Option.noConfusion h
  | fuel + 1 =>
    have h2 : parseValBody (parseMembers fuel) (parseItems fuel) l = some (.obj kvs, r) := h
    rw [parseValBody.eq_def] at h2
    split at h2
    next rest =>
      refine ⟨⟨rest, rfl⟩, ?_⟩
      unfold parseObjRest at h2
      split at h2
      next r0 heq =>
        injection h2 with h2
        injection h2 with hv1 hv2
        subst hv2
        have ht : isTail ('}' :: r0) rest := by
          rw [← heq]
          exact isTail_dropWhile isJWs rest
        obtain ⟨p1, hp1⟩ := ht
        refine ⟨'{' :: (p1 ++ ['}']), ?_, ?_⟩
        · rw [hp1]
          simp
        · have he : '{' :: (p1 ++ ['}']) = ('{' :: p1) ++ ['}'] := by simp
          rw [he]
          exact getLast?_append_right rfl
      next heq =>
        obtain ⟨⟨kvs2, r1⟩, hp, hval⟩ := Option.map_eq_some'.mp h2
        injection hval with hv1 hv2
        subst hv2
        obtain ⟨pre2, hpre2, hlast2⟩ := parseMembers_brace fuel _ _ _ hp
        obtain ⟨p1, hp1⟩ := isTail_dropWhile isJWs rest
        refine ⟨'{' :: (p1 ++ pre2), ?_, ?_⟩
        · rw [List.cons_append, List.append_assoc, ← hpre2, ← hp1]
        · have he : '{' :: (p1 ++ pre2) = ('{' :: p1) ++ pre2 := by simp
          rw [he]
          exact getLast?_append_right hlast2
    next rest =>
      unfold parseArrRest at h2
      split at h2
      next r0 heq =>
        injection h2 with h2
        injection h2 with hv1 hv2
        exact JVal.noConfusion hv1
      next heq =>
        obtain ⟨⟨vs, r1⟩, hp, hval⟩ := Option.map_eq_some'.mp h2
        injection hval with hv1 hv2
        exact JVal.noConfusion hv1
    next rest =>
      obtain ⟨⟨s1, r1⟩, hp, hval⟩ := Option.map_eq_some'.mp h2
      injection hval with hv1 hv2
      exact JVal.noConfusion hv1
    next rest =>
      injection h2 with h2
      injection h2 with hv1 hv2
      exact JVal.noConfusion hv1
    next rest =>
      injection h2 with h2
      injection h2 with hv1 hv2
      exact JVal.noConfusion hv1
    next rest =>
      injection h2 with h2
      injection h2 with hv1 hv2
      exact JVal.noConfusion hv1
    next l2 hne1 hne2 hne3 hne4 hne5 hne6 =>
      obtain ⟨⟨q1, r1⟩, hp, hval⟩ := Option.map_eq_some'.mp h2
      injection hval with hv1 hv2
      exact JVal.noConfusion hv1


/-- A top-level object parse splits the text into leading whitespace, a
brace-delimited block, and trailing whitespace. -/
theorem jsonLoadsL_obj_shape {l : List Char} {kvs : List (String × JVal)}
    (h : jsonLoadsL l = some (.obj kvs)) :
    ∃ ws mid r, l = ws ++ mid ++ r ∧
      (∀ c ∈ ws, isJWs c = true) ∧ (∀ c ∈ r, isJWs c = true) ∧
      (∃ t, mid = '{' :: t) ∧ mid.getLast? = some '}' := by
  unfold jsonLoadsL at h
  split at h
  next v r hpv =>
    split at h
    next hall =>
      injection h with h
      subst h
      obtain ⟨⟨t, ht⟩, pre, hpre, hlast⟩ := parseValAt_obj hpv
      refine ⟨l.takeWhile isJWs, pre, r, ?_, ?_, ?_, ?_, hlast⟩
      · rw [List.append_assoc, ← hpre, List.takeWhile_append_dropWhile]
      · intro c hc
        exact List.mem_takeWhile_imp hc
      · exact List.all_eq_true.mp hall
      · cases pre with
        | nil =>
          rw [List.getLast?_eq_head?_reverse] at hlast
          simp at hlast
        | cons c p =>
          have hh : '{' :: t = c :: (p ++ r) := by
            rw [← ht, hpre]
            rfl
          injection hh with hh1 hh2
          exact ⟨p, by rw [← hh1]⟩
    next => exact Option.noConfusion h
  next => exact Option.noConfusion h

/-- JSON whitespace is Python whitespace. -/
theorem isJWs_isPyWs {c : Char} (h : isJWs c = true) : isPyWs c = true := by
  simp only [isJWs, Bool.or_eq_true, decide_eq_true_eq] at h
  simp only [isPyWs, Bool.or_eq_true, decide_eq_true_eq]
  tauto

/-- Dropping while a predicate holds skips a satisfying prefix. -/
theorem dropWhile_append_all {p : Char → Bool} {a : List Char} (b : List Char)
    (ha : ∀ c ∈ a, p c = true) : (a ++ b).dropWhile p = b.dropWhile p := by
  induction a with
  | nil => rfl
  | cons x xs ih =>
    rw [List.cons_append, List.dropWhile_cons, if_pos (ha x (by simp))]
    exact ih (fun c hc => ha c (by simp [hc]))

/-- Dropping while a predicate holds stops at a failing head. -/
theorem dropWhile_cons_neg {p : Char → Bool} {c : Char} (l : List Char)
    (hc : p c = false) : (c :: l).dropWhile p = c :: l := by
  rw [List.dropWhile_cons, if_neg (by simp [hc])]

/-- Python strip on whitespace-padded text with non-whitespace ends. -/
theorem pstrip_decomp {ws0 mid r : List Char}
    (hws : ∀ c ∈ ws0, isPyWs c = true)
    (hr : ∀ c ∈ r, isPyWs c = true)
    (hh : ∃ c t, mid = c :: t ∧ isPyWs c = false)
    (hl : ∃ c, mid.getLast? = some c ∧ isPyWs c = false) :
    pstrip (ws0 ++ mid ++ r) = mid := by
  obtain ⟨c, t, hmid, hc⟩ := hh
  obtain ⟨d, hd, hdp⟩ := hl
  unfold pstrip
  rw [List.append_assoc, dropWhile_append_all _ hws]
  rw [hmid, List.cons_append, dropWhile_cons_neg _ hc, ← List.cons_append, ← hmid]
  rw [List.reverse_append, dropWhile_append_all _ (fun x hx => hr x (List.mem_reverse.mp hx))]
  have hrev : mid.reverse.head? = some d := by
    rw [List.head?_reverse]
    exact hd
  cases hm : mid.reverse with
  | nil =>
    rw [hm] at hrev
    exact Option.noConfusion hrev
  | cons x xs =>
    rw [hm] at hrev
    injection hrev with hx
    rw [dropWhile_cons_neg _ (by rw [hx]; exact hdp), ← hm, List.reverse_reverse]


theorem startsWithL_append (p rest : List Char) : startsWithL p (p ++ rest) = true := by
  induction p with
  | nil => rfl
  | cons c cs ih => simp [startsWithL, ih]

theorem startsWithL_prepend (a p l : List Char) :
    startsWithL (a ++ p) (a ++ l) = startsWithL p l := by
  induction a with
  | nil => rfl
  | cons c cs ih => simp [startsWithL, ih]

theorem startsWithL_j_ws {c : Char} (hc : isJWs c = true) (p x : List Char) :
    startsWithL ('j' :: p) (c :: x) = false := by
  have hne : ¬('j' = c) := by
    simp only [isJWs, Bool.or_eq_true, decide_eq_true_eq] at hc
    rcases hc with ((h | h) | h) | h <;> subst h <;> decide
  simp [startsWithL, hne]

/-- Python strip is the identity on text with non-whitespace ends. -/
theorem pstrip_id {l : List Char} {c d : Char} (hh : l.head? = some c)
    (hc : isPyWs c = false) (hd : l.getLast? = some d) (hdp : isPyWs d = false) :
    pstrip l = l := by
  cases l with
  | nil => exact Option.noConfusion hh
  | cons x xs =>
    injection hh with hh
    have hnil : ∀ a : Char, a ∈ ([] : List Char) → isPyWs a = true := by
      intro a ha
      exact absurd ha (List.not_mem_nil a)
    have := @pstrip_decomp [] (x :: xs) [] hnil hnil
      ⟨x, xs, rfl, by rw [hh]; exact hc⟩ ⟨d, hd, hdp⟩
    simpa using this

/-- The reverse of a brace-terminated block starts with the brace. -/
theorem reverse_brace {mid : List Char} (hlast : mid.getLast? = some '}') :
    ∃ xs, mid.reverse = '}' :: xs := by
  cases hmr : mid.reverse with
  | nil =>
    rw [← List.head?_reverse, hmr] at hlast
    exact Option.noConfusion hlast
  | cons x xs =>
    rw [← List.head?_reverse, hmr] at hlast
    injection hlast with hx
    exact ⟨xs, by rw [hx]⟩

/-- The extractor's fence stripping is the identity on a brace-delimited
block. -/
theorem stripFences_obj {mid : List Char} {t : List Char} (hmid : mid = '{' :: t)
    (hlast : mid.getLast? = some '}') : stripFences mid = mid := by
  obtain ⟨xs, hxs⟩ := reverse_brace hlast
  unfold stripFences endsWithL
  rw [hmid]
  rw [show startsWithL fenceJson ('{' :: t) = false from by simp [fenceJson, startsWithL]]
  rw [show startsWithL fence3 ('{' :: t) = false from by simp [fence3, startsWithL]]
  simp only [Bool.false_eq_true, if_false]
  rw [← hmid, hxs]
  rw [show startsWithL fence3.reverse ('}' :: xs) = false from by simp [fence3, startsWithL]]
  simp

set_option maxHeartbeats 1000000 in
/-- Wrapping a top-level object document in a single leading/trailing
fence (with or without a json tag) leaves the extractor's cleaned text
unchanged. -/
theorem cleaned_wrapped_eq {l : List Char} {kvs : List (String × JVal)} (tag : Bool)
    (h : jsonLoadsL l = some (.obj kvs)) :
    stripFences (pstrip (((if tag then fenceJson else fence3) ++ l) ++ fence3)) =
      stripFences (pstrip l) := by
  obtain ⟨ws, mid, r, hl, hws, hrj, ⟨t, hmid⟩, hlast⟩ := jsonLoadsL_obj_shape h
  have hwsP : ∀ c ∈ ws, isPyWs c = true := fun c hc => isJWs_isPyWs (hws c hc)
  have hrP : ∀ c ∈ r, isPyWs c = true := fun c hc => isJWs_isPyWs (hrj c hc)
  have hnil : ∀ a : Char, a ∈ ([] : List Char) → isPyWs a = true := by
    intro a ha
    exact absurd ha (List.not_mem_nil a)
  have hps : pstrip l = mid := by
    rw [hl]
    exact @pstrip_decomp ws mid r hwsP hrP ⟨'{', t, hmid, by decide⟩ ⟨'}', hlast, by decide⟩
  have hrhs : stripFences mid = mid := stripFences_obj hmid hlast
  have hfg : fence3.getLast? = some '`' := rfl
  have hinner : pstrip (l ++ fence3) = mid ++ (r ++ fence3) := by
    have hsplit : l ++ fence3 = ws ++ (mid ++ (r ++ fence3)) ++ [] := by
      rw [hl]
      simp
    rw [hsplit]
    exact @pstrip_decomp ws (mid ++ (r ++ fence3)) [] hwsP hnil
      ⟨'{', t ++ (r ++ fence3), by rw [hmid]; rfl, by decide⟩
      ⟨'`', getLast?_append_right (getLast?_append_right hfg), by decide⟩
  have htail : pstrip (mid ++ r) = mid :=
    @pstrip_decomp [] mid r hnil hrP ⟨'{', t, hmid, by decide⟩ ⟨'}', hlast, by decide⟩
  have hends : endsWithL fence3 (mid ++ (r ++ fence3)) = true := by
    unfold endsWithL
    rw [List.reverse_append, List.reverse_append]
    rw [show fence3.reverse = fence3 from rfl]
    rw [List.append_assoc]
    exact startsWithL_append fence3 _
  have hcut : (mid ++ (r ++ fence3)).take ((mid ++ (r ++ fence3)).length - 3) = mid ++ r := by
    rw [← List.append_assoc]
    have hlen : ((mid ++ r) ++ fence3).length - 3 = (mid ++ r).length := by
      rw [List.length_append]
      show (mid ++ r).length + 3 - 3 = (mid ++ r).length
      omega
    rw [hlen]
    exact List.take_left _ _
  have hpwh : (((if tag then fenceJson else fence3) ++ l) ++ fence3).head? = some '`' := by
    cases tag
    · rfl
    · rfl
  have hpw : pstrip (((if tag then fenceJson else fence3) ++ l) ++ fence3) =
      ((if tag then fenceJson else fence3) ++ l) ++ fence3 :=
    pstrip_id hpwh (by decide) (getLast?_append_right hfg) (by decide)
  rw [hps, hrhs, hpw]
  cases tag with
  | true =>
    show stripFences ((fenceJson ++ l) ++ fence3) = mid
    unfold stripFences
    rw [show (fenceJson ++ l) ++ fence3 = fenceJson ++ (l ++ fence3) from by
      rw [List.append_assoc]]
    rw [startsWithL_append]
    simp only [if_true]
    rw [show List.drop 7 (fenceJson ++ (l ++ fence3)) = l ++ fence3 from rfl, hinner]
    rw [hends]
    simp only [if_true]
    rw [hcut, htail]
  | false =>
    show stripFences ((fence3 ++ l) ++ fence3) = mid
    unfold stripFences
    rw [show (fence3 ++ l) ++ fence3 = fence3 ++ (l ++ fence3) from by
      rw [List.append_assoc]]
    have hswj : startsWithL fenceJson (fence3 ++ (l ++ fence3)) = false := by
      rw [show fenceJson = fence3 ++ ['j', 's', 'o', 'n'] from rfl]
      rw [startsWithL_prepend]
      rw [hl]
      cases ws with
      | nil =>
        rw [hmid]
        simp [startsWithL]
      | cons w0 ws2 =>
        rw [show ((w0 :: ws2) ++ mid ++ r) ++ fence3 =
          w0 :: ((ws2 ++ mid ++ r) ++ fence3) from rfl]
        exact startsWithL_j_ws (hws w0 (by simp)) _ _
    rw [hswj]
    simp only [Bool.false_eq_true, if_false]
    rw [startsWithL_append]
    simp only [if_true]
    rw [show List.drop 3 (fence3 ++ (l ++ fence3)) = l ++ fence3 from rfl, hinner]
    rw [hends]
    simp only [if_true]
    rw [hcut, htail]

/-- C9: wrapping a text that parses directly to a valid document (all five
required keys) in a single leading/trailing triple-backtick fence, with or
without a json tag, gives the extractor the same result as the unwrapped
text. -/
theorem C9_fence_wrapping_equivalence :
    ∀ (s : String) (p : JVal) (tag : Bool),
      jsonLoadsL s.toList = some p →
      hasRequiredKeys p = true →
      parse_response_json ((if tag then "```json" else "```") ++ s ++ "```") =
        parse_response_json s := by
  intro s p tag hload hkeys
  obtain ⟨kvs, hkv⟩ : ∃ kvs, p = .obj kvs := by
    cases p with
    | obj kvs => exact ⟨kvs, rfl⟩
    | null => exact absurd hkeys (by simp [hasRequiredKeys])
    | bool b => exact absurd hkeys (by simp [hasRequiredKeys])
    | num q => exact absurd hkeys (by simp [hasRequiredKeys])
    | str s2 => exact absurd hkeys (by simp [hasRequiredKeys])
    | arr xs => exact absurd hkeys (by simp [hasRequiredKeys])
  subst hkv
  unfold parse_response_json parse_response_jsonL
  have hdata : ((if tag then "```json" else "```") ++ s ++ "```").toList =
      ((if tag then fenceJson else fence3) ++ s.toList) ++ fence3 := by
    cases tag with
    | true =>
      show ("```json" ++ s ++ "```").toList = (fenceJson ++ s.toList) ++ fence3
      rw [show ("```json" ++ s ++ "```").toList = ("```json" ++ s).toList ++ "```".toList from
        String.data_append _ _]
      rw [show ("```json" ++ s).toList = "```json".toList ++ s.toList from String.data_append _ _]
      rfl
    | false =>
      show ("```" ++ s ++ "```").toList = (fence3 ++ s.toList) ++ fence3
      rw [show ("```" ++ s ++ "```").toList = ("```" ++ s).toList ++ "```".toList from
        String.data_append _ _]
      rw [show ("```" ++ s).toList = "```".toList ++ s.toList from String.data_append _ _]
      rfl
  rw [hdata]
  exact congrArg (fun x => parseAttempts (braceExtract x)) (cleaned_wrapped_eq tag hload)

/-- A concrete valid document for evaluating the fence-wrapping claim. -/
def c9Doc : String :=
  "\x7b\"verdict\": \"YES\", \"confidence_pct\": 60, \"summary\": \"s\", \"key_drivers\": [], \"sources\": []\x7d"

/-- The parsed form of `c9Doc`. -/
def c9Parsed : JVal :=
  .obj [("verdict", .str "YES"), ("confidence_pct", .num 60), ("summary", .str "s"),
        ("key_drivers", .arr []), ("sources", .arr [])]

/-- C9 witness: the fence-wrapping equivalence evaluated on a concrete
valid document with the json tag. -/
theorem C9_fence_witness :
    parse_response_json ("```json" ++ c9Doc ++ "```") = parse_response_json c9Doc :=
  C9_fence_wrapping_equivalence c9Doc c9Parsed true (by rfl) (by rfl)

end Polyseek
